import Mathlib

/-!
# Migration runner of `database/migrate.go`

A shallow embedding of the schema-migration runner (`getMigrationFiles`,
`ApplyMigrations`, `RollbackLastMigration`) and of the parts of the Go
standard library and of the SQL store it talks to, followed by the command
`cmd/migrate` (namespace `Migrate`), the cron expressions of `cmd/schedules`
(namespace `Schedules`) and the validation-error handler of
`middlewares/error_handler.go` (namespace `Middlewares`).

Modelling conventions

* A Go `string` is a Lean `String`.  Go compares strings byte by byte; on
  valid UTF-8 this is the code-point order used here, and `.up.sql` is ASCII,
  so suffix tests agree as well.
* The file system is an input: the tree that `filepath.WalkDir` sees, the
  result of `os.ReadFile` per path and the outcome of `os.Stat` per path.
* The store is a state `DB`: the rows of `schema_migrations` (absent while the
  table does not exist) and the list of statements handed to `db.Exec`, in
  order, whether they succeeded or not.  A statement can be rejected by the
  store for reasons the program does not control (`Env.execFault`,
  `Env.queryFault`, which may depend on the whole state).  Migration scripts
  change the rest of the store, never `schema_migrations`.
* A Go function returning `error` and mutating the store becomes a function
  returning `Option MigrateError × DB`.  Log output is not modelled.
-/

namespace Migrate

/-- A migration identifier: the file name without its `.up.sql` suffix. -/
abbrev MigrationID := String

/-! ## Go standard library -/

/-- Go `strings.HasSuffix`. -/
def hasSuffix (s suffix : String) : Bool :=
  suffix.data.isSuffixOf s.data

/-- Go `strings.TrimSuffix`: `s` without the trailing `suffix`, or `s` itself. -/
def trimSuffix (s suffix : String) : String :=
  if hasSuffix s suffix then ⟨s.data.take (s.data.length - suffix.data.length)⟩ else s

/-- Go `a <= b` on strings, which is also the order of `ORDER BY id` on a
text column under a byte-wise collation: lexicographic on the characters. -/
def strLE (a b : String) : Bool :=
  decide (a.data ≤ b.data)

/-- Go `filepath.Join` of a clean directory path and a file name. -/
def filepathJoin (dir name : String) : String :=
  dir ++ "/" ++ name

/-- What `filepath.WalkDir` finds at a path: a non-directory entry, or a
directory with the result of `os.ReadDir` on it (the entries it could read,
sorted by file name, and the error if there was one). -/
inductive DirEntry where
  | file (name : String)
  | dir (name : String) (readErr : Option String) (entries : List DirEntry)

/-- Go `DirEntry.Name`: the base name of the entry. -/
def DirEntry.name : DirEntry → String
  | .file n => n
  | .dir n _ _ => n

/-- Go `DirEntry.IsDir`. -/
def DirEntry.isDir : DirEntry → Bool
  | .file _ => false
  | .dir _ _ _ => true

mutual
/-- Go `filepath.walkDir` for a callback that never returns `SkipDir`: the
callback is called on the entry, then, for a directory, a second time with the
`ReadDir` error if there is one, then the entries are walked in order. -/
def walkDir {σ : Type} (fn : DirEntry → Option String → σ → Except String σ) :
    DirEntry → σ → Except String σ
  | .file n, s => fn (.file n) none s
  | .dir n readErr entries, s =>
    match fn (.dir n readErr entries) none s with
    | .error e => .error e
    | .ok s1 =>
      match readErr with
      | some e =>
        match fn (.dir n readErr entries) (some e) s1 with
        | .error e1 => .error e1
        | .ok s2 => walkEntries fn entries s2
      | none => walkEntries fn entries s1
/-- The loop of `walkDir` over the entries of a directory. -/
def walkEntries {σ : Type} (fn : DirEntry → Option String → σ → Except String σ) :
    List DirEntry → σ → Except String σ
  | [], s => .ok s
  | d :: ds, s =>
    match walkDir fn d s with
    | .error e => .error e
    | .ok s1 => walkEntries fn ds s1
end

/-- Go `filepath.WalkDir`: `root` is the result of `os.Lstat` on the root
path, an error or the tree found there. -/
def WalkDir {σ : Type} (root : Except String DirEntry)
    (fn : Option DirEntry → Option String → σ → Except String σ) (s : σ) : Except String σ :=
  match root with
  | .error e => fn none (some e) s
  | .ok d => walkDir (fun d1 err s1 => fn (some d1) err s1) d s

/-! ## The store -/

/-- A statement handed to `db.Exec`. -/
inductive Stmt where
  /-- The statement `CREATE TABLE IF NOT EXISTS schema_migrations (id TEXT PRIMARY KEY)`. -/
  | createTable
  /-- The content of an up or down file. -/
  | script (sql : String)
  /-- The statement `INSERT INTO schema_migrations (id) VALUES ($1)`. -/
  | insert (id : MigrationID)
  /-- The statement `DELETE FROM schema_migrations WHERE id = $1`. -/
  | delete (id : MigrationID)
  deriving DecidableEq, Repr

/-- A query handed to `db.Query` or `db.QueryRow`. -/
inductive Query where
  /-- The query `SELECT id FROM schema_migrations`. -/
  | selectApplied
  /-- The query `SELECT id FROM schema_migrations ORDER BY id DESC LIMIT 1`. -/
  | selectLast
  deriving DecidableEq, Repr

/-- The store: the rows of `schema_migrations` (`none` while the table does
not exist) and every statement handed to `db.Exec` so far. -/
structure DB where
  ledger : Option (List MigrationID)
  execLog : List Stmt
  deriving DecidableEq, Repr

/-- Everything outside the program. -/
structure Env where
  /-- What `os.Lstat` and `os.ReadDir` find under a directory path. -/
  tree : String → Except String DirEntry
  /-- The result of `os.ReadFile` on a path. -/
  readFile : String → Except String String
  /-- Whether `os.Stat` on a path fails with an error for which
  `os.IsNotExist` holds. -/
  statNotExist : String → Bool
  /-- The store rejects a statement, with this error text. -/
  execFault : DB → Stmt → Option String
  /-- The store rejects a query, with this error text. -/
  queryFault : DB → Query → Option String

/-- The error text of the store when `schema_migrations` does not exist. -/
def noTable : String := "relation \"schema_migrations\" does not exist"

/-- The error text of the store on a primary-key conflict. -/
def duplicateKey : String := "duplicate key value violates unique constraint"

/-- Go `db.Exec`: the statement is logged; unless the store rejects it, it
takes effect.  `id` is the primary key of `schema_migrations`, so inserting a
recorded id fails. -/
def dbExec (env : Env) (db : DB) (s : Stmt) : Option String × DB :=
  let db1 : DB := { db with execLog := db.execLog ++ [s] }
  match env.execFault db s with
  | some e => (some e, db1)
  | none =>
    match s with
    | .createTable => (none, { db1 with ledger := some (db.ledger.getD []) })
    | .script _ => (none, db1)
    | .insert id =>
      match db.ledger with
      | none => (some noTable, db1)
      | some rows =>
        if id ∈ rows then (some duplicateKey, db1)
        else (none, { db1 with ledger := some (rows ++ [id]) })
    | .delete id =>
      match db.ledger with
      | none => (some noTable, db1)
      | some rows => (none, { db1 with ledger := some (rows.filter (fun r => r ≠ id)) })

/-- The rows of `SELECT id FROM schema_migrations`. -/
def queryApplied (env : Env) (db : DB) : Except String (List MigrationID) :=
  match env.queryFault db .selectApplied with
  | some e => .error e
  | none =>
    match db.ledger with
    | none => .error noTable
    | some rows => .ok rows

/-- The row of `SELECT id FROM schema_migrations ORDER BY id DESC LIMIT 1`;
`.ok none` stands for `sql.ErrNoRows`. -/
def queryLast (env : Env) (db : DB) : Except String (Option MigrationID) :=
  match env.queryFault db .selectLast with
  | some e => .error e
  | none =>
    match db.ledger with
    | none => .error noTable
    | some rows => .ok (rows.insertionSort (fun a b => strLE b a)).head?

/-! ## `database/migrate.go` -/

/-- The errors `ApplyMigrations` and `RollbackLastMigration` return, one per
`return` site. -/
inductive MigrateError where
  | ensureTable (cause : String)
  | fetchApplied (cause : String)
  | readingFiles (cause : String)
  | missingMigration (id : MigrationID)
  | readingFile (path cause : String)
  | applying (id : MigrationID) (cause : String)
  | recording (id : MigrationID) (cause : String)
  | lastQuery (cause : String)
  | missingFile (path : String)
  | rollingBack (id : MigrationID) (cause : String)
  | deleting (id : MigrationID) (cause : String)
  deriving DecidableEq, Repr

/-- The text of each error, as built by `fmt.Errorf`. -/
def MigrateError.message : MigrateError → String
  | .ensureTable c => "error ensuring schema_migrations table: " ++ c
  | .fetchApplied c => "error fetching applied migrations: " ++ c
  | .readingFiles c => "error reading migration files: " ++ c
  | .missingMigration id =>
    "critical error: migration " ++ id ++ " is missing from the migrations directory"
  | .readingFile p c => "error reading migration file " ++ p ++ ": " ++ c
  | .applying id c => "error applying migration " ++ id ++ ": " ++ c
  | .recording id c => "error recording migration " ++ id ++ ": " ++ c
  | .lastQuery c => c
  | .missingFile p => "critical error: migration file " ++ p ++ " is missing"
  | .rollingBack id c => "error rolling back migration " ++ id ++ ": " ++ c
  | .deleting id c => "error deleting migration record " ++ id ++ ": " ++ c

/-- Source function `ensureSchemaMigrationsTable`. -/
def ensureSchemaMigrationsTable (env : Env) (db : DB) : Option String × DB :=
  dbExec env db .createTable

/-- Source function `getAppliedMigrations`: the keys of the returned map, in the order in
which the rows were read (which is also the order in which `range` is taken to
visit them; neither order is specified). -/
def getAppliedMigrations (env : Env) (db : DB) : Except String (List MigrationID) :=
  match queryApplied env db with
  | .error e => .error e
  | .ok rows => .ok rows.dedup

/-- The callback `getMigrationFiles` passes to `filepath.WalkDir`; `d` is
`none` when `os.Lstat` on the root failed. -/
def collectUp (d : Option DirEntry) (err : Option String) (migrations : List MigrationID) :
    Except String (List MigrationID) :=
  match err with
  | some e => .error e
  | none =>
    match d with
    | none => .ok migrations
    | some d =>
      if hasSuffix d.name ".up.sql" then
        .ok (migrations ++ [trimSuffix d.name ".up.sql"])
      else .ok migrations

/-- Source function `getMigrationFiles`, on what the file system holds at `migrationsDir`. -/
def getMigrationFiles (root : Except String DirEntry) : Except String (List MigrationID) :=
  WalkDir root collectUp []

/-- The drift loop of `ApplyMigrations`: the first applied migration that is
not among the migration files. -/
def findMissing (appliedMigrations migrationFiles : List MigrationID) : Option MigrationID :=
  appliedMigrations.find? (fun appliedMigration =>
    !(migrationFiles.any (fun migration => appliedMigration == migration)))

/-- The apply loop of `ApplyMigrations`; `appliedMigrations` is the map read
before the loop, which the loop does not update. -/
def applyLoop (env : Env) (migrationsDir : String) (appliedMigrations : List MigrationID) :
    List MigrationID → DB → Option MigrateError × DB
  | [], db => (none, db)
  | migrationID :: rest, db =>
    if appliedMigrations.contains migrationID then
      applyLoop env migrationsDir appliedMigrations rest db
    else
      let upSQLPath := filepathJoin migrationsDir (migrationID ++ ".up.sql")
      match env.readFile upSQLPath with
      | .error e => (some (.readingFile upSQLPath e), db)
      | .ok upSQL =>
        match dbExec env db (.script upSQL) with
        | (some e, db1) => (some (.applying migrationID e), db1)
        | (none, db1) =>
          match dbExec env db1 (.insert migrationID) with
          | (some e, db2) => (some (.recording migrationID e), db2)
          | (none, db2) => applyLoop env migrationsDir appliedMigrations rest db2

/-- Source function `ApplyMigrations`. -/
def ApplyMigrations (env : Env) (migrationsDir : String) (db : DB) : Option MigrateError × DB :=
  match ensureSchemaMigrationsTable env db with
  | (some e, db1) => (some (.ensureTable e), db1)
  | (none, db1) =>
    match getAppliedMigrations env db1 with
    | .error e => (some (.fetchApplied e), db1)
    | .ok appliedMigrations =>
      match getMigrationFiles (env.tree migrationsDir) with
      | .error e => (some (.readingFiles e), db1)
      | .ok migrationFiles =>
        match findMissing appliedMigrations migrationFiles with
        | some appliedMigration => (some (.missingMigration appliedMigration), db1)
        | none => applyLoop env migrationsDir appliedMigrations migrationFiles db1

/-- Source function `RollbackLastMigration`. -/
def RollbackLastMigration (env : Env) (migrationsDir : String) (db : DB) :
    Option MigrateError × DB :=
  match queryLast env db with
  | .error e => (some (.lastQuery e), db)
  | .ok none => (none, db)
  | .ok (some lastMigrationID) =>
    let downSQLPath := filepathJoin migrationsDir (lastMigrationID ++ ".down.sql")
    if env.statNotExist downSQLPath then (some (.missingFile downSQLPath), db)
    else
      match env.readFile downSQLPath with
      | .error e => (some (.readingFile downSQLPath e), db)
      | .ok downSQL =>
        match dbExec env db (.script downSQL) with
        | (some e, db1) => (some (.rollingBack lastMigrationID e), db1)
        | (none, db1) =>
          match dbExec env db1 (.delete lastMigrationID) with
          | (some e, db2) => (some (.deleting lastMigrationID e), db2)
          | (none, db2) => (none, db2)

/-! ## Specification vocabulary -/

/-- The statements a run of the apply loop hands to `db.Exec` when it applies
the migrations `ids` one after the other: for each id its up script, then the
insert that records it. -/
def upStmts (content : MigrationID → String) : List MigrationID → List Stmt
  | [] => []
  | id :: ids => .script (content id) :: .insert id :: upStmts content ids

/-- The path of the up file of a migration, as `ApplyMigrations` builds it. -/
def upPath (migrationsDir : String) (id : MigrationID) : String :=
  filepathJoin migrationsDir (id ++ ".up.sql")

/-- The path of the down file of a migration, as `RollbackLastMigration`
builds it. -/
def downPath (migrationsDir : String) (id : MigrationID) : String :=
  filepathJoin migrationsDir (id ++ ".down.sql")

/-- The ids of `migrationFiles` the loop does not skip. -/
def pendingOf (appliedMigrations migrationFiles : List MigrationID) : List MigrationID :=
  migrationFiles.filter (fun id => !(appliedMigrations.contains id))

/-- The store accepts the up script and the insert of every id of `ids`, each
in the state in which the loop sends it: started on the ledger `rows` and the
log `log`, with the ids before it applied. -/
def StoreAccepts (env : Env) (content : MigrationID → String) (rows : List MigrationID)
    (log : List Stmt) (ids : List MigrationID) : Prop :=
  ∀ done id rest, ids = done ++ id :: rest →
    env.execFault ⟨some (rows ++ done), log ++ upStmts content done⟩
        (.script (content id)) = none
      ∧ env.execFault
          ⟨some (rows ++ done), log ++ upStmts content done ++ [.script (content id)]⟩
          (.insert id) = none

/-- The ledger holds, up to the order of the rows, the first ids of `A`. -/
def HoldsPrefix (A : List MigrationID) (db : DB) : Prop :=
  ∃ k, (db.ledger.getD []).Perm (A.take k)

/-! ## Example environments -/

/-- A store that never rejects a statement or a query. -/
def noFault {α : Type} (_ : DB) (_ : α) : Option String := none

/-- The directory of the scenario of the specification: two migrations, each
with its up and its down file. -/
def exampleTree : DirEntry :=
  .dir "migrations" none
    [.file "0001_init.down.sql", .file "0001_init.up.sql",
     .file "0002_add_col.down.sql", .file "0002_add_col.up.sql"]

/-- The content of the files of `exampleTree`. -/
def exampleFiles (path : String) : Except String String :=
  if path = "migrations/0001_init.up.sql" then .ok "CREATE TABLE t ()"
  else if path = "migrations/0001_init.down.sql" then .ok "DROP TABLE t"
  else if path = "migrations/0002_add_col.up.sql" then .ok "ALTER TABLE t ADD COLUMN x int"
  else if path = "migrations/0002_add_col.down.sql" then .ok "ALTER TABLE t DROP COLUMN x"
  else .error "no such file or directory"

/-- The up script of each migration of `exampleTree`. -/
def exampleUp (id : MigrationID) : String :=
  if id = "0001_init" then "CREATE TABLE t ()" else "ALTER TABLE t ADD COLUMN x int"

/-- The scenario of the specification on a store that never fails. -/
def exampleEnv : Env where
  tree := fun p => if p = "migrations" then .ok exampleTree else .error "no such file or directory"
  readFile := exampleFiles
  statNotExist := fun p => !(p = "migrations/0001_init.down.sql"
    || p = "migrations/0002_add_col.down.sql")
  execFault := noFault
  queryFault := noFault

/-- A directory with three migrations. -/
def threeTree : DirEntry :=
  .dir "migrations" none
    [.file "0001_a.up.sql", .file "0002_b.up.sql", .file "0003_c.up.sql"]

/-- The up script of each migration of `threeTree`; the one of `0002_b` is
not valid SQL. -/
def threeUp (id : MigrationID) : String :=
  if id = "0002_b" then "CREATE TABEL b ()" else "CREATE TABLE " ++ id ++ " ()"

/-- Three pending migrations on a store that rejects the script of the
second. -/
def threeEnv : Env where
  tree := fun p => if p = "migrations" then .ok threeTree else .error "no such file or directory"
  readFile := fun p =>
    if p = "migrations/0001_a.up.sql" then .ok (threeUp "0001_a")
    else if p = "migrations/0002_b.up.sql" then .ok (threeUp "0002_b")
    else if p = "migrations/0003_c.up.sql" then .ok (threeUp "0003_c")
    else .error "no such file or directory"
  statNotExist := fun _ => true
  execFault := fun _ s => if s = .script "CREATE TABEL b ()" then some "syntax error" else none
  queryFault := noFault

/-- A directory in which one migration id is the other followed by `-add`.
The entries are in the order of `os.ReadDir`, sorted by file name: `-` sorts
before `.`. -/
def hyphenTree : DirEntry :=
  .dir "migrations" none
    [.file "0001-add.down.sql", .file "0001-add.up.sql",
     .file "0001.down.sql", .file "0001.up.sql"]

/-- The content of the files of `hyphenTree`. -/
def hyphenFiles (path : String) : Except String String :=
  if path = "migrations/0001.up.sql" then .ok "CREATE TABLE t (id int)"
  else if path = "migrations/0001.down.sql" then .ok "DROP TABLE t"
  else if path = "migrations/0001-add.up.sql" then .ok "CREATE TABLE IF NOT EXISTS t (id int, x int)"
  else if path = "migrations/0001-add.down.sql" then .ok "ALTER TABLE t DROP COLUMN x"
  else .error "no such file or directory"

/-- The directory `hyphenTree` on a store with the given behaviour. -/
def hyphenEnv (execFault : DB → Stmt → Option String) : Env where
  tree := fun p => if p = "migrations" then .ok hyphenTree else .error "no such file or directory"
  readFile := hyphenFiles
  statNotExist := fun p => !(p = "migrations/0001.down.sql"
    || p = "migrations/0001-add.down.sql")
  execFault := execFault
  queryFault := noFault

/-- A store that refuses to create table `t` once the script of `0001-add`
has created it. -/
def tableExists (db : DB) (s : Stmt) : Option String :=
  if s = .script "CREATE TABLE t (id int)"
      ∧ Stmt.script "CREATE TABLE IF NOT EXISTS t (id int, x int)" ∈ db.execLog then
    some "relation \"t\" already exists"
  else none

/-- Invariant I2 of the specification for available ids `A`: the ledger,
sorted by id, is a prefix of `A` sorted by id. -/
def ledgerIsPrefix (A : List MigrationID) (db : DB) : Bool :=
  ((db.ledger.getD []).insertionSort (fun a b => strLE a b)).isPrefixOf
    (A.insertionSort (fun a b => strLE a b))

mutual
/-- The migration ids of a directory in the words of the specification: the
names of the files, at any depth, that end with the up-file suffix, with the
suffix removed. -/
def specListMigrationIDs : DirEntry → List MigrationID
  | .file n => if hasSuffix n ".up.sql" then [trimSuffix n ".up.sql"] else []
  | .dir _ _ entries => specListEntries entries
/-- The ids of `specListMigrationIDs` over the entries of a directory. -/
def specListEntries : List DirEntry → List MigrationID
  | [] => []
  | d :: ds => specListMigrationIDs d ++ specListEntries ds
end

mutual
/-- Every directory of the tree can be read and none of them, the root
included, has a name that ends with the up-file suffix. -/
def plainDirs : DirEntry → Bool
  | .file _ => true
  | .dir n readErr entries =>
    !(hasSuffix n ".up.sql") && readErr.isNone && plainDirsList entries
/-- The condition `plainDirs` on the entries of a directory. -/
def plainDirsList : List DirEntry → Bool
  | [] => true
  | d :: ds => plainDirs d && plainDirsList ds
end

/-- A migrations directory that holds no file, only a sub-directory whose
name ends with the up-file suffix. -/
def archiveTree : DirEntry :=
  .dir "migrations" none [.dir "archive.up.sql" none []]

/-- A store that rejects the down script of `0002_add_col`. -/
def rejectDown (_ : DB) (s : Stmt) : Option String :=
  if s = .script "ALTER TABLE t DROP COLUMN x" then some "column \"x\" does not exist"
  else none

/-- The scenario of the specification on a store that rejects the down script
of `0002_add_col`. -/
def downFailEnv : Env :=
  { exampleEnv with execFault := rejectDown }

/-- A migrations directory in which the up file of `0001_init` occurs twice:
at the top and in the sub-directory `old`.  The entries are in the order of
`os.ReadDir`. -/
def dupTree : DirEntry :=
  .dir "migrations" none
    [.file "0001_init.up.sql", .dir "old" none [.file "0001_init.up.sql"]]

/-- The directory `dupTree` on a store that never fails. -/
def dupEnv : Env where
  tree := fun p => if p = "migrations" then .ok dupTree else .error "no such file or directory"
  readFile := fun p =>
    if p = "migrations/0001_init.up.sql" then .ok "CREATE TABLE IF NOT EXISTS t ()"
    else if p = "migrations/old/0001_init.up.sql" then .ok "CREATE TABLE IF NOT EXISTS t ()"
    else .error "no such file or directory"
  statNotExist := fun _ => true
  execFault := noFault
  queryFault := noFault

/-! ## `config/database.go` and `cmd/migrate/main.go` -/

/-- What the process finds outside the migrations directory and the store:
the outcome of `godotenv.Load`, the environment variables, the outcome of
`sql.Open` on a connection string and the outcome of `db.Ping`. -/
structure Host where
  dotenv : Option String
  getenv : String → String
  sqlOpen : String → Option String
  ping : Option String
  env : Env

/-- What the process does to the outside, in order.  Plain log lines are left
out; `usage` is the usage text of the `flag` package, `flagError` the error
line `flag.Parse` prints before it, and `fatal` is `log.Fatalf`, which prints
and exits with status 1 without running deferred calls. -/
inductive Event where
  | dotenvLoad
  | sqlOpen (connStr : String)
  | ping
  | close
  | applyMigrations
  | rollbackLastMigration
  | usage
  | flagError (msg : String)
  | fatal (msg : String)
  deriving DecidableEq, Repr

/-- Source function `config.LoadEnv`. -/
def LoadEnv (h : Host) : Option String :=
  match h.dotenv with
  | some e => some ("error loading .env file: " ++ e)
  | none => none

/-- The connection string `config.InitDB` builds from the environment. -/
def connStr (h : Host) : String :=
  "host=" ++ h.getenv "DB_HOST" ++ " port=" ++ h.getenv "DB_PORT"
    ++ " user=" ++ h.getenv "DB_USER" ++ " dbname=" ++ h.getenv "DB_NAME"
    ++ " sslmode=" ++ h.getenv "DB_SSLMODE" ++ " password=" ++ h.getenv "DB_PASSWORD"

/-- Source function `config.InitDB`: the events it causes and its error, if
any. -/
def InitDB (h : Host) : List Event × Option String :=
  match h.sqlOpen (connStr h) with
  | some e => ([.sqlOpen (connStr h)], some ("error opening database: " ++ e))
  | none =>
    match h.ping with
    | some e => ([.sqlOpen (connStr h), .ping], some ("error connecting to database: " ++ e))
    | none => ([.sqlOpen (connStr h), .ping], none)

/-- The outcome of a run of the process. -/
structure Run where
  exitCode : Nat
  events : List Event
  db : DB
  deriving DecidableEq, Repr

/-- Go `strconv.ParseBool`, which the `flag` package applies to the value of
a boolean flag. -/
def parseBool (s : String) : Option Bool :=
  if s ∈ ["1", "t", "T", "TRUE", "true", "True"] then some true
  else if s ∈ ["0", "f", "F", "FALSE", "false", "False"] then some false
  else none

/-- The split of `name=value` at the first `=` after the first character, as
`parseOne` of the `flag` package does it. -/
def cutAtEq : List Char → List Char × Option (List Char)
  | [] => ([], none)
  | [c] => ([c], none)
  | c :: d :: rest =>
    if d = '=' then ([c], some rest)
    else
      match cutAtEq (d :: rest) with
      | (name, value) => (c :: name, value)

/-- How `flag.Parse` ends: the flags are parsed, or help was asked for (usage,
exit status 0), or an argument is not acceptable (error line and usage, exit
status 2). -/
inductive FlagParse where
  | parsed (migrateUp migrateDown : Bool)
  | help
  | failed (msg : String)
  deriving DecidableEq, Repr

/-- Go `flag.Parse` on the command line of `cmd/migrate`, whose flags are the
booleans `up` and `down`, both false until set.  Parsing stops at the first
argument that is not a flag and at `--`. -/
def parseFlags (migrateUp migrateDown : Bool) : List String → FlagParse
  | [] => .parsed migrateUp migrateDown
  | s :: args =>
    match s.data with
    | ['-', '-'] => .parsed migrateUp migrateDown
    | '-' :: c :: cs =>
      let name0 := if c = '-' then cs else c :: cs
      if name0.head? = some '-' || name0.head? = some '=' || name0.isEmpty then
        .failed ("bad flag syntax: " ++ s)
      else
        match cutAtEq name0 with
        | (name, value) =>
          if String.mk name = "up" || String.mk name = "down" then
            match value with
            | none =>
              if String.mk name = "up" then parseFlags true migrateDown args
              else parseFlags migrateUp true args
            | some v =>
              match parseBool (String.mk v) with
              | none =>
                .failed ("invalid boolean value \"" ++ String.mk v ++ "\" for -"
                  ++ String.mk name ++ ": parse error")
              | some b =>
                if String.mk name = "up" then parseFlags b migrateDown args
                else parseFlags migrateUp b args
          else if String.mk name = "help" || String.mk name = "h" then .help
          else .failed ("flag provided but not defined: -" ++ String.mk name)
    | _ => .parsed migrateUp migrateDown

/-- Function `main` of `cmd/migrate` after `flag.Parse`, on the values of the
flags `-up` and `-down`. -/
def runMigrate (h : Host) (migrateUp migrateDown : Bool) (db : DB) : Run :=
  match LoadEnv h with
  | some e => ⟨1, [.dotenvLoad, .fatal ("Error loading environment variables: " ++ e)], db⟩
  | none =>
    match InitDB h with
    | (evs, some e) =>
      ⟨1, .dotenvLoad :: evs ++ [.fatal ("Error initializing database: " ++ e)], db⟩
    | (evs, none) =>
      let migrationsDir := "database/migrations"
      if migrateUp then
        match ApplyMigrations h.env migrationsDir db with
        | (some e, db1) =>
          ⟨1, .dotenvLoad :: evs
            ++ [.applyMigrations, .fatal ("Error applying migrations: " ++ e.message)], db1⟩
        | (none, db1) => ⟨0, .dotenvLoad :: evs ++ [.applyMigrations, .close], db1⟩
      else if migrateDown then
        match RollbackLastMigration h.env migrationsDir db with
        | (some e, db1) =>
          ⟨1, .dotenvLoad :: evs
            ++ [.rollbackLastMigration,
                .fatal ("Error rolling back the migration: " ++ e.message)], db1⟩
        | (none, db1) => ⟨0, .dotenvLoad :: evs ++ [.rollbackLastMigration, .close], db1⟩
      else ⟨0, .dotenvLoad :: evs ++ [.usage, .close], db⟩

/-- Function `main` of `cmd/migrate`, on the command-line arguments. -/
def migrateMain (h : Host) (args : List String) (db : DB) : Run :=
  match parseFlags false false args with
  | .help => ⟨0, [.usage], db⟩
  | .failed msg => ⟨2, [.flagError msg, .usage], db⟩
  | .parsed migrateUp migrateDown => runMigrate h migrateUp migrateDown db

/-- A host on which everything works. -/
def goodHost : Host where
  dotenv := none
  getenv := fun k =>
    if k = "DB_HOST" then "localhost"
    else if k = "DB_PORT" then "5432"
    else if k = "DB_USER" then "postgres"
    else if k = "DB_NAME" then "app"
    else if k = "DB_SSLMODE" then "disable"
    else if k = "DB_PASSWORD" then "secret"
    else ""
  sqlOpen := fun _ => none
  ping := none
  env := exampleEnv

/-- A host whose database does not answer. -/
def noDatabaseHost : Host :=
  { goodHost with ping := some "dial tcp 127.0.0.1:5432: connect: connection refused" }

/-- A host without a `.env` file. -/
def noDotenvHost : Host :=
  { goodHost with dotenv := some "open .env: no such file or directory" }

end Migrate

namespace Schedules

/-! ## The cron expressions of `github.com/robfig/cron/v3`

The parser created by `cron.WithSeconds()` takes six fields: second, minute,
hour, day of month, month, day of week.  Month and weekday names, descriptors
(`@daily`) and time-zone prefixes are left out. -/

/-- Go `strings.Split` on one separator character. -/
def splitOn (sep : Char) : List Char → List (List Char)
  | [] => [[]]
  | c :: cs =>
    if c = sep then [] :: splitOn sep cs
    else
      match splitOn sep cs with
      | [] => [[c]]
      | w :: ws => (c :: w) :: ws

/-- Go `strings.FieldsFunc` for a one-character separator: the non-empty
pieces. -/
def fieldsOn (sep : Char) (s : List Char) : List (List Char) :=
  (splitOn sep s).filter (fun w => !w.isEmpty)

/-- The value of a string of decimal digits. -/
def digitsValue (s : List Char) : Nat :=
  s.foldl (fun n c => 10 * n + (c.toNat - '0'.toNat)) 0

/-- The library's `mustParseInt`: `strconv.Atoi`, refusing negative numbers. -/
def mustParseInt (s : List Char) : Option Nat :=
  match s with
  | [] => none
  | '+' :: ds => if !ds.isEmpty && ds.all Char.isDigit then some (digitsValue ds) else none
  | '-' :: ds =>
    if !ds.isEmpty && ds.all Char.isDigit && digitsValue ds == 0 then some 0 else none
  | ds => if ds.all Char.isDigit then some (digitsValue ds) else none

/-- The least and greatest value of a field. -/
structure Bounds where
  min : Nat
  max : Nat

/-- The bounds of the six fields. -/
def seconds : Bounds := ⟨0, 59⟩
/-- The bounds of the minute field. -/
def minutes : Bounds := ⟨0, 59⟩
/-- The bounds of the hour field. -/
def hours : Bounds := ⟨0, 23⟩
/-- The bounds of the day-of-month field. -/
def dom : Bounds := ⟨1, 31⟩
/-- The bounds of the month field. -/
def months : Bounds := ⟨1, 12⟩
/-- The bounds of the day-of-week field. -/
def dow : Bounds := ⟨0, 6⟩

/-- A parsed field: the values whose bit is set, and the star bit. -/
structure Field where
  values : List Nat
  star : Bool
  deriving DecidableEq, Repr

/-- The library's `getBits`: the values `min`, `min + step`, ... up to `max`. -/
def getBits (min max step : Nat) : List Nat :=
  (List.range (max + 1)).filter (fun v => min ≤ v && (v - min) % step == 0)

/-- The library's `getRange`: one expression `*`, `?`, `N` or `N-M`, with an
optional `/step`. -/
def getRange (expr : List Char) (r : Bounds) : Option Field :=
  let rangeAndStep := splitOn '/' expr
  let lowAndHigh := splitOn '-' (rangeAndStep.headD [])
  let singleDigit := lowAndHigh.length == 1
  let isStar := lowAndHigh.headD [] == ['*'] || lowAndHigh.headD [] == ['?']
  let startEnd : Option (Nat × Nat) :=
    if isStar then some (r.min, r.max)
    else
      match mustParseInt (lowAndHigh.headD []) with
      | none => none
      | some start =>
        match lowAndHigh with
        | [_] => some (start, start)
        | [_, high] =>
          match mustParseInt high with
          | none => none
          | some e => some (start, e)
        | _ => none
  match startEnd with
  | none => none
  | some (start, end1) =>
    let stepEnd : Option (Nat × Nat × Bool) :=
      match rangeAndStep with
      | [_] => some (1, end1, isStar)
      | [_, st] =>
        match mustParseInt st with
        | none => none
        | some step =>
          some (step, if singleDigit then r.max else end1, if step > 1 then false else isStar)
      | _ => none
    match stepEnd with
    | none => none
    | some (step, end2, extra) =>
      if start < r.min || end2 > r.max || start > end2 || step == 0 then none
      else some ⟨getBits start end2 step, extra⟩

/-- The library's `getField`: the union of the comma-separated expressions. -/
def getField (field : List Char) (r : Bounds) : Option Field :=
  (fieldsOn ',' field).foldl
    (fun acc expr =>
      match acc, getRange expr r with
      | some f, some g => some ⟨f.values ++ g.values, f.star || g.star⟩
      | _, _ => none)
    (some ⟨[], false⟩)

/-- The library's `SpecSchedule`. -/
structure SpecSchedule where
  second : Field
  minute : Field
  hour : Field
  dom : Field
  month : Field
  dow : Field
  deriving DecidableEq, Repr

/-- The parser of `cron.New(cron.WithSeconds())`: exactly six blank-separated
fields. -/
def parseWithSeconds (spec : String) : Option SpecSchedule :=
  match fieldsOn ' ' spec.data with
  | [f0, f1, f2, f3, f4, f5] =>
    match getField f0 seconds, getField f1 minutes, getField f2 hours,
      getField f3 dom, getField f4 months, getField f5 dow with
    | some s, some m, some h, some d, some mo, some w => some ⟨s, m, h, d, mo, w⟩
    | _, _, _, _, _, _ => none
  | _ => none

/-- A wall-clock time, to the second. -/
structure Time where
  second : Nat
  minute : Nat
  hour : Nat
  day : Nat
  month : Nat
  weekday : Nat

/-- A time of the calendar. -/
def Time.valid (t : Time) : Prop :=
  t.second < 60 ∧ t.minute < 60 ∧ t.hour < 24 ∧ 1 ≤ t.day ∧ t.day ≤ 31
    ∧ 1 ≤ t.month ∧ t.month ≤ 12 ∧ t.weekday < 7

/-- The bit of `v` is set in the field. -/
def Field.has (f : Field) (v : Nat) : Bool :=
  f.values.contains v

/-- The library's `dayMatches`. -/
def dayMatches (s : SpecSchedule) (t : Time) : Bool :=
  let domMatch := s.dom.has t.day
  let dowMatch := s.dow.has t.weekday
  if s.dom.star || s.dow.star then domMatch && dowMatch else domMatch || dowMatch

/-- The times at which a schedule activates: `SpecSchedule.Next` returns the
next time at which every field matches. -/
def SpecSchedule.matches (s : SpecSchedule) (t : Time) : Bool :=
  s.month.has t.month && dayMatches s t && s.hour.has t.hour && s.minute.has t.minute
    && s.second.has t.second

/-! ## `cmd/schedules/main.go` -/

/-- The expression `registerSchedules` passes to `AddFunc` for
`DailyCleanupTask`. -/
def dailyCleanupSpec : String := "0 0 * * * *"

/-- The expression `registerSchedules` passes to `AddFunc` for `ExampleTask`. -/
def exampleTaskSpec : String := "*/1 * * * * *"

/-- The job added with expression `spec` on the scheduler of `main` runs at
time `t`. -/
def fires (spec : String) (t : Time) : Bool :=
  match parseWithSeconds spec with
  | some s => s.matches t
  | none => false

end Schedules

namespace Middlewares

/-! ## `validators/register.go`, `validators/auth_validator.go` and
`middlewares/error_handler.go`

A Go map is a list of key/value pairs with distinct keys; `range` visits it in
the order of the list, which stands for any order. -/

/-- Go `strings.Contains`. -/
def stringsContains (s substr : String) : Bool :=
  s.data.tails.any (fun t => substr.data.isPrefixOf t)

/-- Go `m[key] = value` on a map. -/
def mapSet (m : List (String × String)) (key value : String) : List (String × String) :=
  match m with
  | [] => [(key, value)]
  | (k, v) :: rest => if k = key then (k, value) :: rest else (k, v) :: mapSet rest key value

/-- A field of a struct type as `reflect` shows it: its name and its struct
tag, as key/value pairs. -/
structure StructField where
  name : String
  tag : List (String × String)
  deriving DecidableEq, Repr

/-- Go `reflect.StructTag.Get`: the value of a key of the tag, or the empty
string. -/
def StructField.tagGet (f : StructField) (key : String) : String :=
  match f.tag.find? (fun kv => kv.1 == key) with
  | some kv => kv.2
  | none => ""

/-- What an `interface{}` holds, as far as `reflect.TypeOf(obj).NumField()`
tells things apart: nothing, a struct, or a value of another kind. -/
inductive GoValue where
  | nil
  | struct (fields : List StructField)
  | other (kind : String)
  deriving DecidableEq, Repr

/-- A run-time panic. -/
inductive Panic where
  /-- The panic of a method call on a nil `reflect.Type`: invalid memory address or nil
  pointer dereference. -/
  | nilDereference
  /-- The panic of `NumField` on a type that is not a struct. -/
  | numFieldOfNonStruct (kind : String)
  deriving DecidableEq, Repr

/-- The result of a function that may panic. -/
inductive Result (α : Type) where
  | ok (a : α)
  | panic (p : Panic)
  deriving DecidableEq, Repr

/-- The initial value of `validators.ValidatorRegistry`. -/
def ValidatorRegistry : List (String × GoValue) := []

/-- Source function `validators.RegisterValidator`. -/
def RegisterValidator (registry : List (String × GoValue)) (name : String) (v : GoValue) :
    List (String × GoValue) :=
  match registry with
  | [] => [(name, v)]
  | (k, w) :: rest =>
    if k = name then (k, v) :: rest else (k, w) :: RegisterValidator rest name v

/-- The struct `validators.RegisterUserValidator`. -/
def registerUserValidator : GoValue :=
  .struct
    [⟨"Username", [("json", "username"), ("binding", "required,min=3,max=50"),
        ("message", "Username is required and must be between 3 and 50 characters")]⟩,
     ⟨"Email", [("json", "email"), ("binding", "required,email"),
        ("message", "Email is required and must be a valid email address")]⟩,
     ⟨"Password", [("json", "password"), ("binding", "required,min=6"),
        ("message", "Password is required and must be at least 6 characters long")]⟩]

/-- One `validator.FieldError`: the results of its methods `StructField`,
`Field` and `Error`. -/
structure FieldError where
  structField : String
  field : String
  error : String
  deriving DecidableEq, Repr

/-- The response written by `c.JSON`. -/
structure Response where
  status : Nat
  message : String
  errors : List (String × String)
  deriving DecidableEq, Repr

/-- Source function `getFieldMessage`. -/
def getFieldMessage (obj : GoValue) (fieldName tag : String) : Result String :=
  match obj with
  | .nil => .panic .nilDereference
  | .other kind => .panic (.numFieldOfNonStruct kind)
  | .struct fields =>
    match fields.find? (fun field => field.name == fieldName) with
    | some field => .ok (field.tagGet tag)
    | none => .ok ""

/-- Source function `containsValidatorName`. -/
def containsValidatorName (errorStr validatorName : String) : Bool :=
  stringsContains errorStr validatorName

/-- Source function `identifyValidatorStruct`, on the text of `err.Error()`. -/
def identifyValidatorStruct (registry : List (String × GoValue)) (errText : String) : GoValue :=
  match registry.find? (fun entry => containsValidatorName errText entry.1) with
  | some entry => entry.2
  | none => .nil

/-- The loop of `handleValidationErrors` over the field errors. -/
def collectErrors (obj : GoValue) :
    List FieldError → List (String × String) → Result (List (String × String))
  | [], errors => .ok errors
  | fieldErr :: rest, errors =>
    match getFieldMessage obj fieldErr.structField "message" with
    | .panic p => .panic p
    | .ok customMessage =>
      if customMessage ≠ "" then
        collectErrors obj rest (mapSet errors fieldErr.field customMessage)
      else
        collectErrors obj rest (mapSet errors fieldErr.field fieldErr.error)

/-- Source function `handleValidationErrors`, on the registry, the text of
`err.Error()` and the field errors. -/
def handleValidationErrors (registry : List (String × GoValue)) (errText : String)
    (validationErrs : List FieldError) : Result Response :=
  let obj := identifyValidatorStruct registry errText
  match collectErrors obj validationErrs [] with
  | .panic p => .panic p
  | .ok errors => .ok ⟨400, "Validation failed", errors⟩

/-- The message the specification asks for a field error: the `message` tag
of the field in the identified struct when it is not empty, else the default
text. -/
def messageFor (fields : List StructField) (fieldErr : FieldError) : String :=
  match fields.find? (fun field => field.name == fieldErr.structField) with
  | some field =>
    if field.tagGet "message" ≠ "" then field.tagGet "message" else fieldErr.error
  | none => fieldErr.error

/-- The field error of a registration request without a user name. -/
def usernameRequired : FieldError :=
  ⟨"Username", "Username",
    "Key: 'RegisterUserValidator.Username' Error:Field validation for 'Username' failed on the 'required' tag"⟩

end Middlewares

namespace Migrate

/-! ## Lemmas on the store -/

theorem strLE_iff (a b : String) : strLE a b = true ↔ a ≤ b := by
  simp [strLE, String.le_iff_toList_le, String.toList]

theorem dbExec_createTable {env : Env} {db : DB} (h : env.execFault db .createTable = none) :
    dbExec env db .createTable =
      (none, ⟨some (db.ledger.getD []), db.execLog ++ [.createTable]⟩) := by
  simp [dbExec, h]

theorem dbExec_script {env : Env} {db : DB} {c : String}
    (h : env.execFault db (.script c) = none) :
    dbExec env db (.script c) = (none, ⟨db.ledger, db.execLog ++ [.script c]⟩) := by
  simp [dbExec, h]

theorem dbExec_script_fail {env : Env} {db : DB} {c e : String}
    (h : env.execFault db (.script c) = some e) :
    dbExec env db (.script c) = (some e, ⟨db.ledger, db.execLog ++ [.script c]⟩) := by
  simp [dbExec, h]

theorem dbExec_insert {env : Env} {db : DB} {id : MigrationID} {rows : List MigrationID}
    (h : env.execFault db (.insert id) = none) (hl : db.ledger = some rows) (hn : id ∉ rows) :
    dbExec env db (.insert id) = (none, ⟨some (rows ++ [id]), db.execLog ++ [.insert id]⟩) := by
  simp [dbExec, h, hl, hn]

theorem dbExec_delete {env : Env} {db : DB} {id : MigrationID} {rows : List MigrationID}
    (h : env.execFault db (.delete id) = none) (hl : db.ledger = some rows) :
    dbExec env db (.delete id) =
      (none, ⟨some (rows.filter (fun r => r ≠ id)), db.execLog ++ [.delete id]⟩) := by
  simp [dbExec, h, hl]

/-- A script never changes the ledger, whether the store accepts it or not. -/
theorem dbExec_script_ledger (env : Env) (db : DB) (c : String) :
    (dbExec env db (.script c)).2.ledger = db.ledger := by
  unfold dbExec
  cases env.execFault db (.script c) <;> rfl

/-- A statement that the store reports as failed leaves the ledger as it was. -/
theorem dbExec_error_ledger (env : Env) (db : DB) (s : Stmt) (e : String)
    (h : (dbExec env db s).1 = some e) : (dbExec env db s).2.ledger = db.ledger := by
  unfold dbExec at h ⊢
  cases hf : env.execFault db s with
  | some e1 => simp
  | none =>
    simp only [hf] at h ⊢
    cases s with
    | createTable => simp at h
    | script c => simp at h
    | insert id =>
      cases hl : db.ledger with
      | none => simp
      | some rows =>
        simp only [hl] at h ⊢
        by_cases hm : id ∈ rows
        · simp [hm, hl]
        · simp [hm] at h
    | delete id =>
      cases hl : db.ledger with
      | none => simp
      | some rows => simp [hl] at h

/-! ## Lemmas on the apply loop -/

theorem mem_pendingOf {applied files : List MigrationID} {id : MigrationID} :
    id ∈ pendingOf applied files ↔ id ∈ files ∧ id ∉ applied := by
  simp [pendingOf]

/-- Skipping the applied ids in the loop is the same as looping over the
pending ids only. -/
theorem applyLoop_pendingOf (env : Env) (dir : String) (applied : List MigrationID) :
    ∀ (files : List MigrationID) (db : DB),
      applyLoop env dir applied files db
        = applyLoop env dir applied (pendingOf applied files) db := by
  intro files
  induction files with
  | nil => intro db; rfl
  | cons id rest ih =>
    intro db
    by_cases h : id ∈ applied
    · have hc : applied.contains id = true := by simpa using h
      have hp : pendingOf applied (id :: rest) = pendingOf applied rest := by
        simp [pendingOf, List.filter_cons, h]
      rw [hp, ← ih db, applyLoop, if_pos hc]
    · have hc : ¬ (applied.contains id = true) := by simpa using h
      have hp : pendingOf applied (id :: rest) = id :: pendingOf applied rest := by
        simp [pendingOf, List.filter_cons, h]
      rw [hp, applyLoop, applyLoop, if_neg hc, if_neg hc]
      dsimp only
      cases env.readFile (filepathJoin dir (id ++ ".up.sql")) with
      | error e => rfl
      | ok upSQL =>
        dsimp only
        rcases dbExec env db (.script upSQL) with ⟨_ | e, db1⟩
        · dsimp only
          rcases dbExec env db1 (.insert id) with ⟨_ | e2, db2⟩
          · exact ih db2
          · rfl
        · rfl

/-- One round of the loop on a pending id whose up file is read, executed and
recorded. -/
theorem applyLoop_cons_ok {env : Env} {dir : String} {applied rest rows : List MigrationID}
    {id : MigrationID} {c : String} {db : DB}
    (hpend : id ∉ applied)
    (hread : env.readFile (upPath dir id) = .ok c)
    (hexec : env.execFault db (.script c) = none)
    (hins : env.execFault ⟨db.ledger, db.execLog ++ [.script c]⟩ (.insert id) = none)
    (hl : db.ledger = some rows) (hn : id ∉ rows) :
    applyLoop env dir applied (id :: rest) db
      = applyLoop env dir applied rest
          ⟨some (rows ++ [id]), db.execLog ++ [.script c, .insert id]⟩ := by
  have hc1 : ¬ (applied.contains id = true) := by simpa using hpend
  unfold upPath at hread
  rw [applyLoop, if_neg hc1]
  simp only [hread, dbExec_script hexec]
  rw [dbExec_insert hins hl hn]
  simp

theorem StoreAccepts.head {env : Env} {content : MigrationID → String}
    {rows : List MigrationID} {log : List Stmt} {id : MigrationID} {ids : List MigrationID}
    (h : StoreAccepts env content rows log (id :: ids)) :
    env.execFault ⟨some rows, log⟩ (.script (content id)) = none
      ∧ env.execFault ⟨some rows, log ++ [.script (content id)]⟩ (.insert id) = none := by
  have h1 := h [] id ids rfl
  simpa [upStmts] using h1

theorem StoreAccepts.tail {env : Env} {content : MigrationID → String}
    {rows : List MigrationID} {log : List Stmt} {id : MigrationID} {ids : List MigrationID}
    (h : StoreAccepts env content rows log (id :: ids)) :
    StoreAccepts env content (rows ++ [id]) (log ++ [.script (content id), .insert id]) ids := by
  intro done x rest hx
  have h1 := h (id :: done) x rest (by rw [hx]; rfl)
  simpa [upStmts] using h1

/-- The loop on a run of pending ids that are all read, executed and recorded:
the ledger gains them in order, the store sees their statements in order. -/
theorem applyLoop_append_ok {env : Env} {dir : String} {applied : List MigrationID}
    {content : MigrationID → String} (rest : List MigrationID) :
    ∀ (pre rows : List MigrationID) (log : List Stmt),
      (∀ id ∈ pre, id ∉ applied) →
      (∀ id ∈ pre, env.readFile (upPath dir id) = .ok (content id)) →
      StoreAccepts env content rows log pre →
      pre.Nodup → (∀ id ∈ pre, id ∉ rows) →
      applyLoop env dir applied (pre ++ rest) ⟨some rows, log⟩
        = applyLoop env dir applied rest
            ⟨some (rows ++ pre), log ++ upStmts content pre⟩ := by
  intro pre
  induction pre with
  | nil =>
    intro rows log _ _ _ _ _
    simp [upStmts]
  | cons id pre ih =>
    intro rows log hpend hread hacc hnd hnr
    rw [List.nodup_cons] at hnd
    rw [List.cons_append,
      applyLoop_cons_ok (hpend id (List.mem_cons_self _ _)) (hread id (List.mem_cons_self _ _))
        hacc.head.1 hacc.head.2 rfl (hnr id (List.mem_cons_self _ _))]
    rw [ih (rows ++ [id]) _ (fun x hx => hpend x (List.mem_cons_of_mem _ hx))
      (fun x hx => hread x (List.mem_cons_of_mem _ hx)) hacc.tail hnd.2]
    · simp [upStmts]
    · intro x hx hmem
      rcases List.mem_append.mp hmem with h | h
      · exact hnr x (List.mem_cons_of_mem _ hx) h
      · rw [List.mem_singleton] at h
        subst h
        exact hnd.1 hx

theorem pendingOf_congr {P Q : List MigrationID} (h : ∀ x, x ∈ P ↔ x ∈ Q)
    (files : List MigrationID) : pendingOf P files = pendingOf Q files := by
  unfold pendingOf
  apply List.filter_congr
  intro x _
  simp [h x]

theorem pendingOf_append_disjoint (l1 l2 : List MigrationID) (h : ∀ x ∈ l2, x ∉ l1) :
    pendingOf l1 (l1 ++ l2) = l2 := by
  unfold pendingOf
  rw [List.filter_append]
  have h1 : l1.filter (fun id => !(l1.contains id)) = [] := by
    rw [List.filter_eq_nil_iff]
    intro a ha
    simp [ha]
  have h2 : l2.filter (fun id => !(l1.contains id)) = l2 := by
    rw [List.filter_eq_self]
    intro a ha
    simpa using h a ha
  rw [h1, h2, List.nil_append]

/-- When the recorded ids are the first `k` available ids, the pending ids are
the remaining ones. -/
theorem pendingOf_firstIds {A P : List MigrationID} {k : Nat} (hA : A.Nodup)
    (hP : P.Perm (A.take k)) : pendingOf P.dedup A = A.drop k := by
  have hd : (A.take k ++ A.drop k).Nodup := by rwa [List.take_append_drop]
  have hdisj : ∀ x ∈ A.drop k, x ∉ A.take k := fun x hx hx1 =>
    (List.nodup_append.mp hd).2.2 hx1 hx
  have h := pendingOf_append_disjoint (A.take k) (A.drop k) hdisj
  rw [List.take_append_drop] at h
  rw [← h]
  apply pendingOf_congr
  intro x
  rw [List.mem_dedup]
  exact hP.mem_iff

theorem findMissing_eq_none {applied files : List MigrationID} :
    findMissing applied files = none ↔ ∀ a ∈ applied, a ∈ files := by
  simp [findMissing, List.find?_eq_none]

theorem findMissing_eq_some {applied files : List MigrationID} {a : MigrationID}
    (h : findMissing applied files = some a) : a ∈ applied ∧ a ∉ files := by
  unfold findMissing at h
  refine ⟨List.mem_of_find?_eq_some h, ?_⟩
  have h1 := List.find?_some h
  intro hmem
  simp only [Bool.not_eq_true', List.any_eq_false, beq_iff_eq] at h1
  exact h1 a hmem rfl

/-- The start of `ApplyMigrations` when the table can be ensured and read:
what remains is the drift check and the loop. -/
theorem ApplyMigrations_start {env : Env} {dir : String} {db : DB} {P A : List MigrationID}
    (hledger : db.ledger.getD [] = P)
    (hcreate : env.execFault db .createTable = none)
    (hselect : env.queryFault ⟨some P, db.execLog ++ [.createTable]⟩ .selectApplied = none)
    (hA : getMigrationFiles (env.tree dir) = .ok A) :
    ApplyMigrations env dir db =
      match findMissing P.dedup A with
      | some a => (some (.missingMigration a), ⟨some P, db.execLog ++ [.createTable]⟩)
      | none => applyLoop env dir P.dedup A ⟨some P, db.execLog ++ [.createTable]⟩ := by
  unfold ApplyMigrations ensureSchemaMigrationsTable
  rw [dbExec_createTable hcreate, hledger]
  simp only [getAppliedMigrations, queryApplied, hselect, hA]

/-! ## Applying migrations -/

/-- C1: when the available ids `A` are sorted and duplicate-free, the ledger
holds the first `k` of them, the table can be ensured and read, and every
pending up script is read, executed and recorded without error, then
`ApplyMigrations` returns no error, hands to the store exactly the up script
and the insert of each id of `A` that is not in the ledger, once each and in
ascending order, and leaves the ledger holding exactly the ids of `A`. -/
theorem ApplyMigrations_applies_pending (env : Env) (dir : String) (db : DB)
    (A P : List MigrationID) (k : Nat) (content : MigrationID → String)
    (hA : getMigrationFiles (env.tree dir) = .ok A)
    (hsorted : A.Sorted (· < ·))
    (hledger : db.ledger.getD [] = P)
    (hP : P.Perm (A.take k))
    (hcreate : env.execFault db .createTable = none)
    (hselect : env.queryFault ⟨some P, db.execLog ++ [.createTable]⟩ .selectApplied = none)
    (hread : ∀ id ∈ A.drop k, env.readFile (upPath dir id) = .ok (content id))
    (haccept : StoreAccepts env content P (db.execLog ++ [.createTable]) (A.drop k)) :
    ApplyMigrations env dir db
        = (none, ⟨some (P ++ A.drop k),
            db.execLog ++ .createTable :: upStmts content (A.drop k)⟩)
      ∧ A.drop k = A.filter (fun id => decide (id ∉ P))
      ∧ (A.drop k).Sorted (· < ·)
      ∧ (P ++ A.drop k).Perm A := by
  have hnd : A.Nodup := hsorted.nodup
  have hpend : pendingOf P.dedup A = A.drop k := pendingOf_firstIds hnd hP
  have hsub : ∀ a ∈ P.dedup, a ∈ A := fun a ha =>
    List.mem_of_mem_take (hP.mem_iff.mp (List.mem_dedup.mp ha))
  have hmem : ∀ id ∈ A.drop k, id ∉ P.dedup := fun id hid => by
    rw [← hpend] at hid
    exact (mem_pendingOf.mp hid).2
  refine ⟨?_, ?_, ?_, ?_⟩
  · rw [ApplyMigrations_start hledger hcreate hselect hA, findMissing_eq_none.mpr hsub]
    simp only
    rw [applyLoop_pendingOf, hpend]
    have h := @applyLoop_append_ok env dir P.dedup content [] (A.drop k) P
      (db.execLog ++ [.createTable]) hmem hread haccept (hnd.sublist (List.drop_sublist k A))
      (fun id hid hP1 => hmem id hid (List.mem_dedup.mpr hP1))
    rw [List.append_nil] at h
    rw [h, applyLoop]
    simp
  · rw [← hpend]
    unfold pendingOf
    apply List.filter_congr
    intro x _
    simp
  · exact hsorted.sublist (List.drop_sublist k A)
  · have h1 : (P ++ A.drop k).Perm (A.take k ++ A.drop k) := hP.append_right _
    rwa [List.take_append_drop] at h1

/-- The scenario of the specification with `0001_init` already recorded. -/
theorem ApplyMigrations_applies_pending_witness :
    ApplyMigrations exampleEnv "migrations" ⟨some ["0001_init"], []⟩
        = (none, ⟨some (["0001_init"] ++ ["0001_init", "0002_add_col"].drop 1),
            [] ++ .createTable :: upStmts exampleUp (["0001_init", "0002_add_col"].drop 1)⟩)
      ∧ ["0001_init", "0002_add_col"].drop 1
          = ["0001_init", "0002_add_col"].filter (fun id => decide (id ∉ ["0001_init"]))
      ∧ (["0001_init", "0002_add_col"].drop 1).Sorted (· < ·)
      ∧ (["0001_init"] ++ ["0001_init", "0002_add_col"].drop 1).Perm
          ["0001_init", "0002_add_col"] :=
  ApplyMigrations_applies_pending exampleEnv "migrations" ⟨some ["0001_init"], []⟩
    ["0001_init", "0002_add_col"] ["0001_init"] 1 exampleUp rfl
    (by simp [String.lt_iff_toList_lt]; decide) rfl (List.Perm.refl _) rfl rfl
    (by intro id hid; simp at hid; subst hid; rfl)
    (fun _ _ _ _ => ⟨rfl, rfl⟩)

/-- C2: when the table can be ensured and read and some recorded id is not
among the available ids `A`, `ApplyMigrations` returns the error that names a
recorded id missing from `A`; the only statement the store has received is the
`CREATE TABLE IF NOT EXISTS`, so no up script has run, and the ledger is still
`P`. -/
theorem ApplyMigrations_drift (env : Env) (dir : String) (db : DB) (A P : List MigrationID)
    (hA : getMigrationFiles (env.tree dir) = .ok A)
    (hledger : db.ledger = some P)
    (hcreate : env.execFault db .createTable = none)
    (hselect : env.queryFault ⟨some P, db.execLog ++ [.createTable]⟩ .selectApplied = none)
    (hdrift : ∃ id ∈ P, id ∉ A) :
    ∃ id, id ∈ P ∧ id ∉ A
      ∧ ApplyMigrations env dir db
          = (some (.missingMigration id), ⟨some P, db.execLog ++ [.createTable]⟩)
      ∧ (MigrateError.missingMigration id).message
          = "critical error: migration " ++ id ++ " is missing from the migrations directory" := by
  have hg : db.ledger.getD [] = P := by rw [hledger]; rfl
  rw [ApplyMigrations_start hg hcreate hselect hA]
  cases hf : findMissing P.dedup A with
  | none =>
    obtain ⟨id, hid, hnot⟩ := hdrift
    exact absurd (findMissing_eq_none.mp hf id (List.mem_dedup.mpr hid)) hnot
  | some a =>
    obtain ⟨h1, h2⟩ := findMissing_eq_some hf
    exact ⟨a, List.mem_dedup.mp h1, h2, rfl, rfl⟩

/-- The ledger records `0000_lost`, which has no up file in `exampleTree`. -/
theorem ApplyMigrations_drift_witness :
    ∃ id, id ∈ ["0001_init", "0000_lost"] ∧ id ∉ ["0001_init", "0002_add_col"]
      ∧ ApplyMigrations exampleEnv "migrations" ⟨some ["0001_init", "0000_lost"], []⟩
          = (some (.missingMigration id),
              ⟨some ["0001_init", "0000_lost"], [] ++ [.createTable]⟩)
      ∧ (MigrateError.missingMigration id).message
          = "critical error: migration " ++ id ++ " is missing from the migrations directory" :=
  ApplyMigrations_drift exampleEnv "migrations" ⟨some ["0001_init", "0000_lost"], []⟩
    ["0001_init", "0002_add_col"] ["0001_init", "0000_lost"] rfl rfl rfl rfl
    ⟨"0000_lost", by decide, by decide⟩

/-- C3: when the drift check passes and the pending ids, in ascending order,
are `pre ++ pk :: post`, the scripts of `pre` are read, executed and recorded,
and the store rejects the up script of `pk`, then `ApplyMigrations` returns the
error that names `pk` with the cause; the ledger has gained exactly `pre`, so
`pk` and the ids of `post` are not recorded; and the last statement the store
has received is the script of `pk`, so no later up script has run. -/
theorem ApplyMigrations_stops_at_first_failure (env : Env) (dir : String) (db : DB)
    (A P pre post : List MigrationID) (pk : MigrationID) (content : MigrationID → String)
    (cause : String)
    (hA : getMigrationFiles (env.tree dir) = .ok A)
    (hledger : db.ledger.getD [] = P)
    (hcreate : env.execFault db .createTable = none)
    (hselect : env.queryFault ⟨some P, db.execLog ++ [.createTable]⟩ .selectApplied = none)
    (hnodrift : ∀ id ∈ P, id ∈ A)
    (hpending : A.filter (fun id => decide (id ∉ P)) = pre ++ pk :: post)
    (hsorted : (pre ++ pk :: post).Sorted (· < ·))
    (hread : ∀ id ∈ pre ++ [pk], env.readFile (upPath dir id) = .ok (content id))
    (haccept : StoreAccepts env content P (db.execLog ++ [.createTable]) pre)
    (hfail : env.execFault
        ⟨some (P ++ pre), db.execLog ++ .createTable :: upStmts content pre⟩
        (.script (content pk)) = some cause) :
    ApplyMigrations env dir db
        = (some (.applying pk cause),
            ⟨some (P ++ pre),
              db.execLog ++ .createTable :: upStmts content pre ++ [.script (content pk)]⟩)
      ∧ pk ∉ P ++ pre
      ∧ (∀ q ∈ post, q ∉ P ++ pre)
      ∧ (MigrateError.applying pk cause).message
          = "error applying migration " ++ pk ++ ": " ++ cause := by
  have hpend : pendingOf P.dedup A = pre ++ pk :: post := by
    rw [← hpending]
    unfold pendingOf
    apply List.filter_congr
    intro x _
    simp
  have hnd : (pre ++ pk :: post).Nodup := hsorted.nodup
  have hnotP : ∀ id ∈ pre ++ pk :: post, id ∉ P := fun id hid hP1 => by
    rw [← hpend] at hid
    exact (mem_pendingOf.mp hid).2 (List.mem_dedup.mpr hP1)
  have hsub : ∀ a ∈ P.dedup, a ∈ A := fun a ha => hnodrift a (List.mem_dedup.mp ha)
  have hpre : ∀ id ∈ pre, id ∈ pre ++ pk :: post := fun id hid =>
    List.mem_append_left _ hid
  have hpk : pk ∈ pre ++ pk :: post := List.mem_append_right _ (List.mem_cons_self _ _)
  have hnd1 := List.nodup_append.mp hnd
  refine ⟨?_, ?_, ?_, rfl⟩
  · rw [ApplyMigrations_start hledger hcreate hselect hA, findMissing_eq_none.mpr hsub]
    simp only
    rw [applyLoop_pendingOf, hpend]
    have hloop := @applyLoop_append_ok env dir P.dedup content (pk :: post) pre P
      (db.execLog ++ [Stmt.createTable])
      (fun id hid h => hnotP id (hpre id hid) (List.mem_dedup.mp h))
      (fun id hid => hread id (List.mem_append_left _ hid)) haccept hnd1.1
      (fun id hid => hnotP id (hpre id hid))
    rw [hloop]
    have hc : ¬ (P.dedup.contains pk = true) := by
      simpa using hnotP pk hpk
    have hr := hread pk (List.mem_append_right _ (List.mem_singleton_self _))
    unfold upPath at hr
    have hfail1 : env.execFault
        ⟨some (P ++ pre), db.execLog ++ [.createTable] ++ upStmts content pre⟩
        (.script (content pk)) = some cause := by
      simpa using hfail
    rw [applyLoop, if_neg hc]
    simp only [hr, dbExec_script_fail hfail1]
    simp
  · intro h
    rcases List.mem_append.mp h with h1 | h1
    · exact hnotP pk hpk h1
    · exact hnd1.2.2 h1 (List.mem_cons_self _ _)
  · intro q hq h
    have hq1 : q ∈ pre ++ pk :: post :=
      List.mem_append_right _ (List.mem_cons_of_mem _ hq)
    rcases List.mem_append.mp h with h1 | h1
    · exact hnotP q hq1 h1
    · exact hnd1.2.2 h1 (List.mem_cons_of_mem _ hq)

/-- The second of three pending migrations fails: the first is recorded, the
second and the third are not, the script of the third never reaches the store
and the error names the second. -/
theorem ApplyMigrations_stops_at_first_failure_witness :
    ApplyMigrations threeEnv "migrations" ⟨none, []⟩
        = (some (.applying "0002_b" "syntax error"),
            ⟨some ([] ++ ["0001_a"]),
              [] ++ .createTable :: upStmts threeUp ["0001_a"]
                ++ [.script (threeUp "0002_b")]⟩)
      ∧ "0002_b" ∉ [] ++ ["0001_a"]
      ∧ (∀ q ∈ ["0003_c"], q ∉ [] ++ ["0001_a"])
      ∧ (MigrateError.applying "0002_b" "syntax error").message
          = "error applying migration " ++ "0002_b" ++ ": " ++ "syntax error" :=
  ApplyMigrations_stops_at_first_failure threeEnv "migrations" ⟨none, []⟩
    ["0001_a", "0002_b", "0003_c"] [] ["0001_a"] ["0003_c"] "0002_b" threeUp "syntax error"
    rfl rfl rfl rfl (by simp) (by decide)
    (by simp [String.lt_iff_toList_lt]; decide)
    (by intro id hid; simp at hid; rcases hid with h | h <;> subst h <;> rfl)
    (by
      intro done id rest h
      have hd : done = [] := by
        cases done with
        | nil => rfl
        | cons x xs => simp at h
      subst hd
      simp only [List.nil_append, List.cons.injEq] at h
      rw [← h.1]
      exact ⟨by decide, by decide⟩)
    (by decide)

/-! ## Order of application -/

/-- C4: the walk visits `0001-add.up.sql` before `0001.up.sql`, the order of
their file names, so `getMigrationFiles` returns `0001-add` before `0001`,
which is not ascending in the migration id; `ApplyMigrations` executes the up
scripts in that order, and `RollbackLastMigration`, which orders by id, then
rolls back `0001-add`, the migration applied first. -/
theorem getMigrationFiles_not_ascending :
    ["0001-add.down.sql", "0001-add.up.sql", "0001.down.sql", "0001.up.sql"].Sorted (· < ·)
      ∧ getMigrationFiles (.ok hyphenTree) = .ok ["0001-add", "0001"]
      ∧ ¬ ["0001-add", "0001"].Sorted (· ≤ ·)
      ∧ ApplyMigrations (hyphenEnv noFault) "migrations" ⟨none, []⟩
          = (none, ⟨some ["0001-add", "0001"],
              [.createTable,
               .script "CREATE TABLE IF NOT EXISTS t (id int, x int)", .insert "0001-add",
               .script "CREATE TABLE t (id int)", .insert "0001"]⟩)
      ∧ (RollbackLastMigration (hyphenEnv noFault) "migrations"
            ⟨some ["0001-add", "0001"], []⟩)
          = (none, ⟨some ["0001"], [.script "ALTER TABLE t DROP COLUMN x", .delete "0001-add"]⟩) := by
  refine ⟨?_, rfl, ?_, by decide, by decide⟩
  · simp [String.lt_iff_toList_lt]
    decide
  · simp [String.le_iff_toList_le]
    decide

/-- C5: with the files of `hyphenTree` and an empty ledger, the ledger is a
prefix of the sorted ids; `ApplyMigrations` records `0001-add`, then fails on
`0001`; the ledger `0001-add` is not a prefix of the sorted ids
`0001`, `0001-add`. -/
theorem ledgerIsPrefix_not_preserved :
    getMigrationFiles ((hyphenEnv tableExists).tree "migrations") = .ok ["0001-add", "0001"]
      ∧ ledgerIsPrefix ["0001-add", "0001"] ⟨some [], []⟩ = true
      ∧ ApplyMigrations (hyphenEnv tableExists) "migrations" ⟨some [], []⟩
          = (some (.applying "0001" "relation \"t\" already exists"),
              ⟨some ["0001-add"],
                [.createTable,
                 .script "CREATE TABLE IF NOT EXISTS t (id int, x int)", .insert "0001-add",
                 .script "CREATE TABLE t (id int)"]⟩)
      ∧ ledgerIsPrefix ["0001-add", "0001"]
          (ApplyMigrations (hyphenEnv tableExists) "migrations" ⟨some [], []⟩).2 = false := by
  refine ⟨rfl, by decide, by decide, by decide⟩

/-! ## Listing the migration files -/

mutual
/-- The walk of `getMigrationFiles` over a readable tree without directories
named like up files collects the ids of the specification, in walk order. -/
theorem walkDir_collectUp :
    ∀ (t : DirEntry) (acc : List MigrationID), plainDirs t = true →
      walkDir (fun d1 err s1 => collectUp (some d1) err s1) t acc
        = .ok (acc ++ specListMigrationIDs t)
  | .file n, acc, _ => by
    by_cases h : hasSuffix n ".up.sql" = true
    · simp [walkDir, collectUp, specListMigrationIDs, DirEntry.name, h]
    · simp [walkDir, collectUp, specListMigrationIDs, DirEntry.name, h]
  | .dir n readErr entries, acc, h => by
    simp only [plainDirs, Bool.and_eq_true, Bool.not_eq_true', Option.isNone_iff_eq_none] at h
    obtain ⟨⟨h1, h2⟩, h3⟩ := h
    subst h2
    simp only [walkDir, collectUp, DirEntry.name, h1, Bool.false_eq_true, if_false,
      specListMigrationIDs]
    exact walkEntries_collectUp entries acc h3
/-- The loop of the walk over the entries of such a directory. -/
theorem walkEntries_collectUp :
    ∀ (ds : List DirEntry) (acc : List MigrationID), plainDirsList ds = true →
      walkEntries (fun d1 err s1 => collectUp (some d1) err s1) ds acc
        = .ok (acc ++ specListEntries ds)
  | [], acc, _ => by simp [walkEntries, specListEntries]
  | d :: ds, acc, h => by
    simp only [plainDirsList, Bool.and_eq_true] at h
    simp only [walkEntries, walkDir_collectUp d acc h.1, specListEntries]
    rw [walkEntries_collectUp ds _ h.2, List.append_assoc]
end

/-- On a readable tree in which no directory is named like an up file,
`getMigrationFiles` returns exactly the ids of the specification; in
particular it returns the empty sequence when no file is an up file. -/
theorem getMigrationFiles_plainDirs (t : DirEntry) (h : plainDirs t = true) :
    getMigrationFiles (.ok t) = .ok (specListMigrationIDs t) := by
  simp [getMigrationFiles, WalkDir, walkDir_collectUp t [] h]

/-- C10: a migrations directory that holds no file, only a sub-directory
named `archive.up.sql`, has no migration id in the words of the specification,
but `getMigrationFiles` returns the id `archive`. -/
theorem getMigrationFiles_takes_directories :
    specListMigrationIDs archiveTree = []
      ∧ getMigrationFiles (.ok archiveTree) = .ok ["archive"] := by
  exact ⟨rfl, rfl⟩

/-! ## Rolling back -/

/-- The head of the rows ordered by descending id is one of the rows. -/
theorem head_desc_mem {L : List MigrationID} {m : MigrationID}
    (h : (L.insertionSort (fun a b => strLE b a)).head? = some m) : m ∈ L := by
  have hp := List.perm_insertionSort (fun a b : MigrationID => strLE b a = true) L
  exact hp.mem_iff.mp (List.mem_of_mem_head? h)

/-- The head of the rows ordered by descending id is the greatest id. -/
theorem head_desc_greatest {L : List MigrationID} {m : MigrationID} (hm : m ∈ L)
    (hmax : ∀ x ∈ L, x ≤ m) :
    (L.insertionSort (fun a b => strLE b a)).head? = some m := by
  haveI : IsTotal MigrationID (fun a b => strLE b a = true) :=
    ⟨fun a b => by simp only [strLE_iff]; exact le_total b a⟩
  haveI : IsTrans MigrationID (fun a b => strLE b a = true) :=
    ⟨fun a b c hab hbc => by
      simp only [strLE_iff] at hab hbc ⊢
      exact le_trans hbc hab⟩
  have hp := List.perm_insertionSort (fun a b : MigrationID => strLE b a = true) L
  have hs := List.sorted_insertionSort (fun a b : MigrationID => strLE b a = true) L
  cases hsort : L.insertionSort (fun a b => strLE b a) with
  | nil =>
    rw [hsort] at hp
    exact absurd (hp.mem_iff.mpr hm) (List.not_mem_nil m)
  | cons h t =>
    rw [hsort] at hp hs
    have hh : h ≤ m := hmax h (hp.mem_iff.mp (List.mem_cons_self _ _))
    have hmh : m ≤ h := by
      rcases List.mem_cons.mp (hp.mem_iff.mpr hm) with heq | hmt
      · exact le_of_eq heq
      · exact (strLE_iff m h).mp (List.rel_of_sorted_cons hs m hmt)
    simp [le_antisymm hh hmh]

theorem queryLast_greatest {env : Env} {db : DB} {L : List MigrationID} {m : MigrationID}
    (hl : db.ledger = some L) (hq : env.queryFault db .selectLast = none)
    (hm : m ∈ L) (hmax : ∀ x ∈ L, x ≤ m) : queryLast env db = .ok (some m) := by
  simp only [queryLast, hq, hl, head_desc_greatest hm hmax]

/-- C6: when the query for the last id succeeds on a ledger `L` whose
greatest id is `m`, the down file of `m` exists and is read, and the store
accepts the down script and the delete, then `RollbackLastMigration` returns no
error, hands to the store the down script of `m` and the delete of `m` and
nothing else, and leaves the ledger `L` without `m`, every other row kept in
place. -/
theorem RollbackLastMigration_removes_last (env : Env) (dir : String) (db : DB)
    (L : List MigrationID) (m : MigrationID) (downSQL : String)
    (hl : db.ledger = some L)
    (hq : env.queryFault db .selectLast = none)
    (hm : m ∈ L) (hmax : ∀ x ∈ L, x ≤ m)
    (hstat : env.statNotExist (downPath dir m) = false)
    (hread : env.readFile (downPath dir m) = .ok downSQL)
    (hexec : env.execFault db (.script downSQL) = none)
    (hdel : env.execFault ⟨some L, db.execLog ++ [.script downSQL]⟩ (.delete m) = none) :
    RollbackLastMigration env dir db
        = (none, ⟨some (L.filter (fun r => r ≠ m)),
            db.execLog ++ [.script downSQL, .delete m]⟩)
      ∧ (∀ x, x ∈ L.filter (fun r => r ≠ m) ↔ x ∈ L ∧ x ≠ m) := by
  unfold downPath at hstat hread
  constructor
  · unfold RollbackLastMigration
    rw [queryLast_greatest hl hq hm hmax]
    simp only [hstat, hread, Bool.false_eq_true, if_false, dbExec_script hexec]
    rw [hl]
    rw [dbExec_delete hdel rfl]
    simp
  · intro x
    simp

/-- The second half of the scenario of the specification: both migrations
recorded, the last one is rolled back. -/
theorem RollbackLastMigration_removes_last_witness :
    RollbackLastMigration exampleEnv "migrations" ⟨some ["0001_init", "0002_add_col"], []⟩
        = (none, ⟨some (["0001_init", "0002_add_col"].filter (fun r => r ≠ "0002_add_col")),
            [] ++ [.script "ALTER TABLE t DROP COLUMN x", .delete "0002_add_col"]⟩)
      ∧ (∀ x, x ∈ ["0001_init", "0002_add_col"].filter (fun r => r ≠ "0002_add_col")
          ↔ x ∈ ["0001_init", "0002_add_col"] ∧ x ≠ "0002_add_col") :=
  RollbackLastMigration_removes_last exampleEnv "migrations"
    ⟨some ["0001_init", "0002_add_col"], []⟩ ["0001_init", "0002_add_col"] "0002_add_col"
    "ALTER TABLE t DROP COLUMN x" rfl rfl (by simp)
    (by simp [String.le_iff_toList_le]; decide) rfl rfl rfl rfl

/-- When `schema_migrations` was never created, the query of
`RollbackLastMigration` fails and its error is returned as it is. -/
theorem RollbackLastMigration_no_table (env : Env) (dir : String) (db : DB)
    (hl : db.ledger = none) (hq : env.queryFault db .selectLast = none) :
    RollbackLastMigration env dir db = (some (.lastQuery noTable), db) := by
  simp [RollbackLastMigration, queryLast, hq, hl]

/-- On a `schema_migrations` table that exists, has no rows and can be
queried, `RollbackLastMigration` returns no error and leaves the store as it
was: the ledger is unchanged and no statement, hence no down script, has been
handed to the store. -/
theorem RollbackLastMigration_empty (env : Env) (dir : String) (db : DB)
    (hl : db.ledger = some [])
    (hq : env.queryFault db .selectLast = none) :
    RollbackLastMigration env dir db = (none, db) := by
  simp [RollbackLastMigration, queryLast, hq, hl]

/-- Rolling back on the empty ledger of the scenario. -/
theorem RollbackLastMigration_empty_witness :
    RollbackLastMigration exampleEnv "migrations" ⟨some [], [.createTable]⟩
      = (none, ⟨some [], [.createTable]⟩) :=
  RollbackLastMigration_empty exampleEnv "migrations" ⟨some [], [.createTable]⟩ rfl rfl

/-- C7: on a database in which `schema_migrations` was never created, so that
no migration is recorded, `RollbackLastMigration` returns the error of its
query and not the result for nothing to roll back; `ApplyMigrations` creates
the table first, with `ensureSchemaMigrationsTable`, and once the table exists
the roll back on the same empty ledger returns no error. -/
theorem RollbackLastMigration_fresh_database :
    RollbackLastMigration exampleEnv "migrations" ⟨none, []⟩
        = (some (.lastQuery "relation \"schema_migrations\" does not exist"), ⟨none, []⟩)
      ∧ (MigrateError.lastQuery "relation \"schema_migrations\" does not exist").message
          = "relation \"schema_migrations\" does not exist"
      ∧ ensureSchemaMigrationsTable exampleEnv ⟨none, []⟩ = (none, ⟨some [], [.createTable]⟩)
      ∧ RollbackLastMigration exampleEnv "migrations" ⟨some [], [.createTable]⟩
          = (none, ⟨some [], [.createTable]⟩) := by
  refine ⟨by decide, by decide, by decide, by decide⟩

/-- C8: let `m` be the last applied id.  When its down file does not exist,
`RollbackLastMigration` returns the error naming the missing file and the
store is untouched: same ledger, no statement executed.  When the file is read
and the store rejects the down script, it returns the error naming `m` and the
ledger is the one before the call. -/
theorem RollbackLastMigration_failure_keeps_ledger (env : Env) (dir : String) (db : DB)
    (m : MigrationID) (hlast : queryLast env db = .ok (some m)) :
    (env.statNotExist (downPath dir m) = true →
        RollbackLastMigration env dir db = (some (.missingFile (downPath dir m)), db))
      ∧ (∀ downSQL cause, env.statNotExist (downPath dir m) = false →
          env.readFile (downPath dir m) = .ok downSQL →
          env.execFault db (.script downSQL) = some cause →
          RollbackLastMigration env dir db
              = (some (.rollingBack m cause), ⟨db.ledger, db.execLog ++ [.script downSQL]⟩)
            ∧ (RollbackLastMigration env dir db).2.ledger = db.ledger) := by
  unfold downPath
  constructor
  · intro hstat
    simp [RollbackLastMigration, hlast, hstat]
  · intro downSQL cause hstat hread hexec
    have h : RollbackLastMigration env dir db
        = (some (.rollingBack m cause), ⟨db.ledger, db.execLog ++ [.script downSQL]⟩) := by
      simp [RollbackLastMigration, hlast, hstat, hread, dbExec_script_fail hexec]
    rw [h]
    exact ⟨rfl, rfl⟩

/-- With `0001_a` recorded and no down file, nothing reaches the store; with
both migrations of the scenario recorded and a store that rejects the down
script of `0002_add_col`, the ledger keeps both. -/
theorem RollbackLastMigration_failure_keeps_ledger_witness :
    RollbackLastMigration threeEnv "migrations" ⟨some ["0001_a"], []⟩
        = (some (.missingFile (downPath "migrations" "0001_a")), ⟨some ["0001_a"], []⟩)
      ∧ RollbackLastMigration downFailEnv "migrations"
            ⟨some ["0001_init", "0002_add_col"], []⟩
          = (some (.rollingBack "0002_add_col" "column \"x\" does not exist"),
              ⟨some ["0001_init", "0002_add_col"],
                [] ++ [.script "ALTER TABLE t DROP COLUMN x"]⟩) :=
  ⟨(RollbackLastMigration_failure_keeps_ledger threeEnv "migrations"
      ⟨some ["0001_a"], []⟩ "0001_a" rfl).1 rfl,
   ((RollbackLastMigration_failure_keeps_ledger downFailEnv "migrations"
      ⟨some ["0001_init", "0002_add_col"], []⟩ "0002_add_col" rfl).2
        "ALTER TABLE t DROP COLUMN x" "column \"x\" does not exist" rfl rfl rfl).1⟩

/-! ## Rolling back, then applying -/

/-- An insert that the store reports as done has added a new row. -/
theorem dbExec_insert_done {env : Env} {db db2 : DB} {id : MigrationID}
    {rows : List MigrationID} (h : dbExec env db (.insert id) = (none, db2))
    (hl : db.ledger = some rows) : id ∉ rows ∧ db2.ledger = some (rows ++ [id]) := by
  unfold dbExec at h
  cases hf : env.execFault db (.insert id) with
  | some e => simp [hf] at h
  | none =>
    simp only [hf, hl] at h
    by_cases hm : id ∈ rows
    · simp [hm] at h
    · simp only [hm, if_false, Prod.mk.injEq, true_and] at h
      exact ⟨hm, by rw [← h]⟩

/-- A run of the loop that returns no error has recorded every pending id, in
order, and none of them was recorded before. -/
theorem applyLoop_done {env : Env} {dir : String} {applied : List MigrationID} :
    ∀ (files : List MigrationID) (db db' : DB) (rows : List MigrationID),
      applyLoop env dir applied files db = (none, db') → db.ledger = some rows →
      db'.ledger = some (rows ++ pendingOf applied files)
        ∧ (rows.Nodup → (rows ++ pendingOf applied files).Nodup) := by
  intro files
  induction files with
  | nil =>
    intro db db' rows h hl
    rw [applyLoop] at h
    simp only [Prod.mk.injEq, true_and] at h
    subst h
    simp [pendingOf, hl]
  | cons id rest ih =>
    intro db db' rows h hl
    by_cases hmem : id ∈ applied
    · have hc : applied.contains id = true := by simpa using hmem
      have hp : pendingOf applied (id :: rest) = pendingOf applied rest := by
        simp [pendingOf, List.filter_cons, hmem]
      rw [applyLoop, if_pos hc] at h
      rw [hp]
      exact ih db db' rows h hl
    · have hc : ¬ (applied.contains id = true) := by simpa using hmem
      have hp : pendingOf applied (id :: rest) = id :: pendingOf applied rest := by
        simp [pendingOf, List.filter_cons, hmem]
      rw [applyLoop, if_neg hc] at h
      dsimp only at h
      cases hr : env.readFile (filepathJoin dir (id ++ ".up.sql")) with
      | error e => simp [hr] at h
      | ok upSQL =>
        simp only [hr] at h
        rcases hd : dbExec env db (.script upSQL) with ⟨_ | e, db1⟩
        · simp only [hd] at h
          have hl1 : db1.ledger = some rows := by
            have := dbExec_script_ledger env db upSQL
            rw [hd] at this
            exact this.trans hl
          rcases hd2 : dbExec env db1 (.insert id) with ⟨_ | e2, db2⟩
          · simp only [hd2] at h
            obtain ⟨hn, hl2⟩ := dbExec_insert_done hd2 hl1
            obtain ⟨h1, h2⟩ := ih db2 db' (rows ++ [id]) h hl2
            rw [hp]
            refine ⟨by simpa using h1, fun hnd => ?_⟩
            have h3 := h2 (List.nodup_append.mpr
              ⟨hnd, List.nodup_singleton id, by simpa using hn⟩)
            simpa using h3
          · simp [hd2] at h
        · simp [hd] at h

/-- A run of `ApplyMigrations` that returns no error on a ledger `L1` has found
every row of `L1` among the files and has added the pending ids. -/
theorem ApplyMigrations_done {env : Env} {dir : String} {db : DB} {A L1 : List MigrationID}
    (h : (ApplyMigrations env dir db).1 = none) (hl : db.ledger = some L1)
    (hA : getMigrationFiles (env.tree dir) = .ok A) :
    (∀ a ∈ L1, a ∈ A)
      ∧ (ApplyMigrations env dir db).2.ledger = some (L1 ++ pendingOf L1.dedup A)
      ∧ (L1.Nodup → (L1 ++ pendingOf L1.dedup A).Nodup) := by
  have hg : db.ledger.getD [] = L1 := by rw [hl]; rfl
  cases hc : env.execFault db .createTable with
  | some e =>
    simp [ApplyMigrations, ensureSchemaMigrationsTable, dbExec, hc] at h
  | none =>
    cases hs : env.queryFault ⟨some L1, db.execLog ++ [.createTable]⟩ .selectApplied with
    | some e =>
      simp [ApplyMigrations, ensureSchemaMigrationsTable, dbExec_createTable hc, hg,
        getAppliedMigrations, queryApplied, hs] at h
    | none =>
      rw [ApplyMigrations_start hg hc hs hA] at h ⊢
      cases hf : findMissing L1.dedup A with
      | some a => simp [hf] at h
      | none =>
        simp only [hf] at h ⊢
        have hsub : ∀ a ∈ L1, a ∈ A := fun a ha =>
          findMissing_eq_none.mp hf a (List.mem_dedup.mpr ha)
        have hloop := @applyLoop_done env dir L1.dedup A
          ⟨some L1, db.execLog ++ [Stmt.createTable]⟩
          (applyLoop env dir L1.dedup A ⟨some L1, db.execLog ++ [Stmt.createTable]⟩).2 L1
          (Prod.ext h rfl) rfl
        exact ⟨hsub, hloop.1, hloop.2⟩

/-- Whatever `RollbackLastMigration` does, it only removes rows. -/
theorem RollbackLastMigration_sublist (env : Env) (dir : String) (db : DB)
    (L : List MigrationID) (hl : db.ledger = some L) :
    ∃ L1, (RollbackLastMigration env dir db).2.ledger = some L1 ∧ L1.Sublist L := by
  unfold RollbackLastMigration
  cases hq : queryLast env db with
  | error e => exact ⟨L, hl, List.Sublist.refl L⟩
  | ok last =>
    cases last with
    | none => exact ⟨L, hl, List.Sublist.refl L⟩
    | some m =>
      dsimp only
      by_cases hstat : env.statNotExist (filepathJoin dir (m ++ ".down.sql")) = true
      · rw [if_pos hstat]
        exact ⟨L, hl, List.Sublist.refl L⟩
      · rw [if_neg hstat]
        cases hr : env.readFile (filepathJoin dir (m ++ ".down.sql")) with
        | error e => exact ⟨L, hl, List.Sublist.refl L⟩
        | ok downSQL =>
          dsimp only
          have hl1 := dbExec_script_ledger env db downSQL
          rcases hd : dbExec env db (.script downSQL) with ⟨_ | e, db1⟩
          · rw [hd] at hl1
            simp only at hl1
            dsimp only
            rcases hd2 : dbExec env db1 (.delete m) with ⟨_ | e2, db2⟩
            · dsimp only
              unfold dbExec at hd2
              cases hf : env.execFault db1 (.delete m) with
              | some e3 => simp [hf] at hd2
              | none =>
                simp only [hf, hl1, hl, Prod.mk.injEq, true_and] at hd2
                refine ⟨L.filter (fun r => r ≠ m), by rw [← hd2], List.filter_sublist L⟩
            · dsimp only
              have := dbExec_error_ledger env db1 (.delete m) e2 (by rw [hd2])
              rw [hd2] at this
              exact ⟨L, by rw [this, hl1, hl], List.Sublist.refl L⟩
          · rw [hd] at hl1
            exact ⟨L, by rw [hl1, hl], List.Sublist.refl L⟩

/-- C9 as stated fails: with `0001_init` recorded and `0002_add_col` available
but not yet applied, the ledger is contained in the available ids, the roll
back succeeds and so does the apply that follows, and the ledger then holds
both ids, not the one it held before. -/
theorem rollback_then_apply_not_restored :
    getMigrationFiles (exampleEnv.tree "migrations") = .ok ["0001_init", "0002_add_col"]
      ∧ (∀ x ∈ ["0001_init"], x ∈ ["0001_init", "0002_add_col"])
      ∧ (RollbackLastMigration exampleEnv "migrations" ⟨some ["0001_init"], []⟩).1 = none
      ∧ (ApplyMigrations exampleEnv "migrations"
          (RollbackLastMigration exampleEnv "migrations" ⟨some ["0001_init"], []⟩).2).1 = none
      ∧ (ApplyMigrations exampleEnv "migrations"
          (RollbackLastMigration exampleEnv "migrations" ⟨some ["0001_init"], []⟩).2).2.ledger
          = some ["0001_init", "0002_add_col"]
      ∧ ¬ (["0001_init", "0002_add_col"].Perm ["0001_init"]) := by
  refine ⟨rfl, by decide, by decide, by decide, by decide, ?_⟩
  intro h
  simpa using h.length_eq

/-- C9, amended: when the ledger `L` holds exactly the available ids `A`, so
that nothing is pending before the roll back, a `RollbackLastMigration` that
returns no error followed by an `ApplyMigrations` that returns no error leaves
a ledger with the same rows as `L`. -/
theorem rollback_then_apply_restores (env : Env) (dir : String) (db : DB)
    (A L : List MigrationID)
    (hA : getMigrationFiles (env.tree dir) = .ok A)
    (hl : db.ledger = some L) (hnd : L.Nodup)
    (hLA : ∀ x ∈ L, x ∈ A) (hAL : ∀ x ∈ A, x ∈ L)
    (_hroll : (RollbackLastMigration env dir db).1 = none)
    (happly : (ApplyMigrations env dir (RollbackLastMigration env dir db).2).1 = none) :
    ∃ rows, (ApplyMigrations env dir (RollbackLastMigration env dir db).2).2.ledger = some rows
      ∧ rows.Perm L := by
  obtain ⟨L1, hl1, hsub⟩ := RollbackLastMigration_sublist env dir db L hl
  obtain ⟨hdrift, hled, hnodup⟩ := ApplyMigrations_done happly hl1 hA
  refine ⟨L1 ++ pendingOf L1.dedup A, hled, ?_⟩
  rw [List.perm_ext_iff_of_nodup (hnodup (hnd.sublist hsub)) hnd]
  intro x
  rw [List.mem_append, mem_pendingOf, List.mem_dedup]
  constructor
  · rintro (h | ⟨h, _⟩)
    · exact hsub.subset h
    · exact hAL x h
  · intro h
    by_cases hx : x ∈ L1
    · exact Or.inl hx
    · exact Or.inr ⟨hLA x h, hx⟩

/-- The scenario of the specification with both migrations recorded: the roll
back removes `0002_add_col` and the apply records it again. -/
theorem rollback_then_apply_restores_witness :
    ∃ rows, (ApplyMigrations exampleEnv "migrations"
        (RollbackLastMigration exampleEnv "migrations"
          ⟨some ["0001_init", "0002_add_col"], []⟩).2).2.ledger = some rows
      ∧ rows.Perm ["0001_init", "0002_add_col"] :=
  rollback_then_apply_restores exampleEnv "migrations"
    ⟨some ["0001_init", "0002_add_col"], []⟩
    ["0001_init", "0002_add_col"] ["0001_init", "0002_add_col"] rfl rfl (by decide)
    (fun _ h => h) (fun _ h => h) (by decide) (by decide)

/-! ## The ledger as a prefix of the available ids

When the ids returned by `getMigrationFiles` are strictly ascending, every call
of `ApplyMigrations` and of `RollbackLastMigration`, whatever its outcome,
keeps invariant I2 (`ledgerIsPrefix`).  The walk does not always return them
so: see `getMigrationFiles_not_ascending`. -/

/-- The head of the rows ordered by descending id is above every row. -/
theorem head_desc_max {L : List MigrationID} {m : MigrationID}
    (h : (L.insertionSort (fun a b => strLE b a)).head? = some m) : ∀ x ∈ L, x ≤ m := by
  haveI : IsTotal MigrationID (fun a b => strLE b a = true) :=
    ⟨fun a b => by simp only [strLE_iff]; exact le_total b a⟩
  haveI : IsTrans MigrationID (fun a b => strLE b a = true) :=
    ⟨fun a b c hab hbc => by
      simp only [strLE_iff] at hab hbc ⊢
      exact le_trans hbc hab⟩
  have hp := List.perm_insertionSort (fun a b : MigrationID => strLE b a = true) L
  have hs := List.sorted_insertionSort (fun a b : MigrationID => strLE b a = true) L
  intro x hx
  cases hsort : L.insertionSort (fun a b => strLE b a) with
  | nil => rw [hsort] at h; simp at h
  | cons y t =>
    rw [hsort] at h hp hs
    simp only [List.head?_cons, Option.some.injEq] at h
    subst h
    rcases List.mem_cons.mp (hp.mem_iff.mpr hx) with heq | hxt
    · exact le_of_eq heq
    · exact (strLE_iff x y).mp (List.rel_of_sorted_cons hs x hxt)

/-- Whatever the outcome of the loop, the ledger has gained the first pending
ids, in order, and nothing else. -/
theorem applyLoop_ledger {env : Env} {dir : String} {applied : List MigrationID} :
    ∀ (files : List MigrationID) (db : DB) (rows : List MigrationID),
      db.ledger = some rows →
      ∃ done, done <+: pendingOf applied files
        ∧ (applyLoop env dir applied files db).2.ledger = some (rows ++ done) := by
  intro files
  induction files with
  | nil =>
    intro db rows hl
    exact ⟨[], List.nil_prefix, by simp [applyLoop, hl]⟩
  | cons id rest ih =>
    intro db rows hl
    by_cases hmem : id ∈ applied
    · have hc : applied.contains id = true := by simpa using hmem
      have hp : pendingOf applied (id :: rest) = pendingOf applied rest := by
        simp [pendingOf, List.filter_cons, hmem]
      rw [applyLoop, if_pos hc, hp]
      exact ih db rows hl
    · have hc : ¬ (applied.contains id = true) := by simpa using hmem
      have hp : pendingOf applied (id :: rest) = id :: pendingOf applied rest := by
        simp [pendingOf, List.filter_cons, hmem]
      rw [applyLoop, if_neg hc, hp]
      dsimp only
      cases env.readFile (filepathJoin dir (id ++ ".up.sql")) with
      | error e => exact ⟨[], List.nil_prefix, by simp [hl]⟩
      | ok upSQL =>
        dsimp only
        have hl1 := dbExec_script_ledger env db upSQL
        rcases hd : dbExec env db (.script upSQL) with ⟨_ | e, db1⟩
        · rw [hd] at hl1
          simp only at hl1
          dsimp only
          rcases hd2 : dbExec env db1 (.insert id) with ⟨_ | e2, db2⟩
          · dsimp only
            obtain ⟨_, hl2⟩ := dbExec_insert_done hd2 (hl1.trans hl)
            obtain ⟨done, hpre, hres⟩ := ih db2 (rows ++ [id]) hl2
            refine ⟨id :: done, ?_, by simpa using hres⟩
            obtain ⟨t, ht⟩ := hpre
            exact ⟨t, by simp [← ht]⟩
          · dsimp only
            have h3 := dbExec_error_ledger env db1 (.insert id) e2 (by rw [hd2])
            rw [hd2] at h3
            exact ⟨[], List.nil_prefix, by simpa using (h3.trans hl1).trans hl⟩
        · rw [hd] at hl1
          exact ⟨[], List.nil_prefix, by simpa using hl1.trans hl⟩

/-- Whatever the outcome of `ApplyMigrations`, the ledger has gained the first
pending ids, in order, and nothing else. -/
theorem ApplyMigrations_ledger {env : Env} {dir : String} {A : List MigrationID} (db : DB)
    (hA : getMigrationFiles (env.tree dir) = .ok A) :
    ∃ done, done <+: pendingOf (db.ledger.getD []).dedup A
      ∧ (ApplyMigrations env dir db).2.ledger.getD [] = db.ledger.getD [] ++ done := by
  cases hc : env.execFault db .createTable with
  | some e =>
    exact ⟨[], List.nil_prefix,
      by simp [ApplyMigrations, ensureSchemaMigrationsTable, dbExec, hc]⟩
  | none =>
    cases hs : env.queryFault ⟨some (db.ledger.getD []), db.execLog ++ [.createTable]⟩
        .selectApplied with
    | some e =>
      exact ⟨[], List.nil_prefix,
        by simp [ApplyMigrations, ensureSchemaMigrationsTable, dbExec_createTable hc,
          getAppliedMigrations, queryApplied, hs]⟩
    | none =>
      rw [ApplyMigrations_start rfl hc hs hA]
      cases hf : findMissing (db.ledger.getD []).dedup A with
      | some a => exact ⟨[], List.nil_prefix, by simp⟩
      | none =>
        obtain ⟨done, hpre, hres⟩ := @applyLoop_ledger env dir (db.ledger.getD []).dedup A
          ⟨some (db.ledger.getD []), db.execLog ++ [Stmt.createTable]⟩ (db.ledger.getD []) rfl
        exact ⟨done, hpre, by simp [hres]⟩

/-- Whatever the outcome of `RollbackLastMigration`, the ledger is the one
before the call or has lost its greatest id. -/
theorem RollbackLastMigration_ledger (env : Env) (dir : String) (db : DB) :
    (RollbackLastMigration env dir db).2.ledger = db.ledger
      ∨ ∃ L m, db.ledger = some L ∧ m ∈ L ∧ (∀ x ∈ L, x ≤ m)
          ∧ (RollbackLastMigration env dir db).2.ledger = some (L.filter (fun r => r ≠ m)) := by
  unfold RollbackLastMigration
  cases hq : queryLast env db with
  | error e => exact Or.inl rfl
  | ok last =>
    cases last with
    | none => exact Or.inl rfl
    | some m =>
      dsimp only
      by_cases hstat : env.statNotExist (filepathJoin dir (m ++ ".down.sql")) = true
      · rw [if_pos hstat]
        exact Or.inl rfl
      · rw [if_neg hstat]
        cases hr : env.readFile (filepathJoin dir (m ++ ".down.sql")) with
        | error e => exact Or.inl rfl
        | ok downSQL =>
          dsimp only
          have hl1 := dbExec_script_ledger env db downSQL
          rcases hd : dbExec env db (.script downSQL) with ⟨_ | e, db1⟩
          · rw [hd] at hl1
            simp only at hl1
            dsimp only
            rcases hd2 : dbExec env db1 (.delete m) with ⟨_ | e2, db2⟩
            · dsimp only
              unfold dbExec at hd2
              cases hf : env.execFault db1 (.delete m) with
              | some e3 => simp [hf] at hd2
              | none =>
                cases hl : db.ledger with
                | none => simp [hf, hl1, hl] at hd2
                | some L =>
                  simp only [hf, hl1, hl, Prod.mk.injEq, true_and] at hd2
                  have hh : (L.insertionSort (fun a b => strLE b a)).head? = some m := by
                    unfold queryLast at hq
                    cases hqf : env.queryFault db .selectLast with
                    | some e4 => simp [hqf] at hq
                    | none => simpa [hqf, hl] using hq
                  exact Or.inr ⟨L, m, rfl, head_desc_mem hh, head_desc_max hh, by rw [← hd2]⟩
            · dsimp only
              have h3 := dbExec_error_ledger env db1 (.delete m) e2 (by rw [hd2])
              rw [hd2] at h3
              exact Or.inl (h3.trans hl1)
          · rw [hd] at hl1
            exact Or.inl hl1

/-- Removing the greatest id of a strictly ascending list removes its last
element. -/
theorem filter_ne_greatest {T : List MigrationID} {m : MigrationID}
    (hs : T.Sorted (· < ·)) (hm : m ∈ T) (hmax : ∀ x ∈ T, x ≤ m) :
    T.filter (fun r => r ≠ m) = T.dropLast := by
  have hne : T ≠ [] := List.ne_nil_of_mem hm
  obtain ⟨D, l, rfl⟩ : ∃ D l, T = D ++ [l] :=
    ⟨T.dropLast, T.getLast hne, (List.dropLast_append_getLast hne).symm⟩
  have hp := List.pairwise_append.mp hs
  have hlt : ∀ a ∈ D, a < l := fun a ha => hp.2.2 a ha l (List.mem_singleton_self l)
  have hlm : l ≤ m := hmax l (by simp)
  have hml : m = l := by
    rcases List.mem_append.mp hm with h | h
    · exact absurd (hlt m h) (not_lt.mpr hlm)
    · simpa using h
  subst hml
  have h1 : D.filter (fun r => r ≠ m) = D := by
    rw [List.filter_eq_self]
    intro a ha
    simpa using (hlt a ha).ne
  rw [List.dropLast_concat, List.filter_append, h1]
  simp

/-- For strictly ascending available ids, invariant I2 says that the ledger
holds, up to the order of the rows, the first ids of `A`. -/
theorem ledgerIsPrefix_iff {A : List MigrationID} (hs : A.Sorted (· < ·)) (db : DB) :
    ledgerIsPrefix A db = true ↔ HoldsPrefix A db := by
  haveI : IsTotal MigrationID (fun a b => strLE a b = true) :=
    ⟨fun a b => by simp only [strLE_iff]; exact le_total a b⟩
  haveI : IsTrans MigrationID (fun a b => strLE a b = true) :=
    ⟨fun a b c hab hbc => by
      simp only [strLE_iff] at hab hbc ⊢
      exact le_trans hab hbc⟩
  haveI : IsAntisymm MigrationID (fun a b => strLE a b = true) :=
    ⟨fun a b hab hba => by
      simp only [strLE_iff] at hab hba
      exact le_antisymm hab hba⟩
  have hsA : A.Sorted (fun a b => strLE a b = true) :=
    List.Pairwise.imp (fun h => (strLE_iff _ _).mpr (le_of_lt h)) hs
  have hAsort : A.insertionSort (fun a b => strLE a b = true) = A :=
    List.Sorted.insertionSort_eq hsA
  have hperm := List.perm_insertionSort (fun a b : MigrationID => strLE a b = true)
    (db.ledger.getD [])
  have hsorted := List.sorted_insertionSort (fun a b : MigrationID => strLE a b = true)
    (db.ledger.getD [])
  unfold ledgerIsPrefix HoldsPrefix
  rw [List.isPrefixOf_iff_prefix, hAsort]
  constructor
  · intro h
    refine ⟨((db.ledger.getD []).insertionSort (fun a b => strLE a b = true)).length, ?_⟩
    rw [← List.prefix_iff_eq_take.mp h]
    exact hperm.symm
  · rintro ⟨k, hk⟩
    have heq := List.eq_of_perm_of_sorted (hperm.trans hk) hsorted
      (hsA.sublist (List.take_sublist k A))
    rw [heq]
    exact List.take_prefix k A

/-- When the available ids are strictly ascending, `ApplyMigrations` keeps
invariant I2, whether it succeeds or fails at any step. -/
theorem ApplyMigrations_keeps_prefix (env : Env) (dir : String) (db : DB)
    (A : List MigrationID) (hA : getMigrationFiles (env.tree dir) = .ok A)
    (hsorted : A.Sorted (· < ·)) (h : ledgerIsPrefix A db = true) :
    ledgerIsPrefix A (ApplyMigrations env dir db).2 = true := by
  rw [ledgerIsPrefix_iff hsorted] at h ⊢
  obtain ⟨k, hk⟩ := h
  obtain ⟨done, hpre, hres⟩ := ApplyMigrations_ledger db hA
  rw [pendingOf_firstIds hsorted.nodup hk] at hpre
  refine ⟨k + done.length, ?_⟩
  rw [hres, List.take_add, ← List.prefix_iff_eq_take.mp hpre]
  exact hk.append_right _

/-- When the available ids are strictly ascending, `RollbackLastMigration`
keeps invariant I2, whether it succeeds or fails at any step. -/
theorem RollbackLastMigration_keeps_prefix (env : Env) (dir : String) (db : DB)
    (A : List MigrationID) (hsorted : A.Sorted (· < ·)) (h : ledgerIsPrefix A db = true) :
    ledgerIsPrefix A (RollbackLastMigration env dir db).2 = true := by
  rw [ledgerIsPrefix_iff hsorted] at h ⊢
  obtain ⟨k, hk⟩ := h
  rcases RollbackLastMigration_ledger env dir db with hsame | ⟨L, m, hl, hm, hmax, hres⟩
  · exact ⟨k, by rw [hsame]; exact hk⟩
  · rw [hl] at hk
    simp only [Option.getD_some] at hk
    have hs : (A.take k).Sorted (· < ·) := hsorted.sublist (List.take_sublist k A)
    have hf := filter_ne_greatest hs (hk.mem_iff.mp hm)
      (fun x hx => hmax x (hk.mem_iff.mpr hx))
    refine ⟨min ((A.take k).length - 1) k, ?_⟩
    rw [hres]
    simp only [Option.getD_some]
    rw [← List.take_take, ← List.dropLast_eq_take, ← hf]
    exact hk.filter _

/-! ## Duplicate up files -/

/-- C14: the up file of `0001_init` occurs at the top of the migrations
directory and in a sub-directory; `getMigrationFiles` returns the id twice, the
loop does not update the applied set, so the up script reaches the store twice
and so does the insert, which the primary key then rejects. -/
theorem ApplyMigrations_runs_duplicate_twice :
    getMigrationFiles (dupEnv.tree "migrations") = .ok ["0001_init", "0001_init"]
      ∧ ApplyMigrations dupEnv "migrations" ⟨some [], []⟩
          = (some (.recording "0001_init" duplicateKey),
              ⟨some ["0001_init"],
                [.createTable,
                 .script "CREATE TABLE IF NOT EXISTS t ()", .insert "0001_init",
                 .script "CREATE TABLE IF NOT EXISTS t ()", .insert "0001_init"]⟩)
      ∧ (ApplyMigrations dupEnv "migrations" ⟨some [], []⟩).2.execLog.count
          (.script "CREATE TABLE IF NOT EXISTS t ()") = 2
      ∧ (ApplyMigrations dupEnv "migrations" ⟨some [], []⟩).2.execLog.count
          (.insert "0001_init") = 2 := by
  refine ⟨rfl, by decide, by decide, by decide⟩

/-! ## The command `cmd/migrate` -/

/-- The run after `flag.Parse` with neither flag set, case by case: a failed
load of `.env` ends it with status 1 before the database is opened; a failed
`sql.Open` or `db.Ping` ends it with status 1; in none of these cases is usage
printed; when all succeed usage is printed, the database is closed and the
status is 0.  The store is never touched. -/
theorem runMigrate_no_flag (h : Host) (db : DB) :
    runMigrate h false false db =
      match h.dotenv with
      | some e =>
        ⟨1, [.dotenvLoad, .fatal ("Error loading environment variables: "
          ++ ("error loading .env file: " ++ e))], db⟩
      | none =>
        match h.sqlOpen (connStr h) with
        | some e =>
          ⟨1, [.dotenvLoad, .sqlOpen (connStr h),
            .fatal ("Error initializing database: " ++ ("error opening database: " ++ e))], db⟩
        | none =>
          match h.ping with
          | some e =>
            ⟨1, [.dotenvLoad, .sqlOpen (connStr h), .ping,
              .fatal ("Error initializing database: "
                ++ ("error connecting to database: " ++ e))], db⟩
          | none => ⟨0, [.dotenvLoad, .sqlOpen (connStr h), .ping, .usage, .close], db⟩ := by
  unfold runMigrate LoadEnv InitDB
  cases h.dotenv with
  | some e => rfl
  | none =>
    cases h.sqlOpen (connStr h) with
    | some e => rfl
    | none =>
      cases h.ping with
      | some e => rfl
      | none => rfl

/-- A command line that sets neither `-up` nor `-down`: either `flag.Parse`
ends the run itself, with usage and nothing else, or the run is the one of
`runMigrate_no_flag`; in every case the store is left as it was and neither
`ApplyMigrations` nor `RollbackLastMigration` is called. -/
theorem migrateMain_neither_flag (h : Host) (args : List String) (db : DB)
    (hno : ∀ up down, parseFlags false false args = .parsed up down →
      up = false ∧ down = false) :
    migrateMain h args db =
        (match parseFlags false false args with
          | .help => ⟨0, [.usage], db⟩
          | .failed msg => ⟨2, [.flagError msg, .usage], db⟩
          | .parsed _ _ => runMigrate h false false db)
      ∧ (migrateMain h args db).db = db
      ∧ Event.applyMigrations ∉ (migrateMain h args db).events
      ∧ Event.rollbackLastMigration ∉ (migrateMain h args db).events := by
  unfold migrateMain
  cases hp : parseFlags false false args with
  | help => simp
  | failed msg => simp
  | parsed up down =>
    obtain ⟨h1, h2⟩ := hno up down hp
    subst h1
    subst h2
    simp only [true_and]
    rw [runMigrate_no_flag]
    cases h.dotenv with
    | some e => simp
    | none =>
      cases h.sqlOpen (connStr h) with
      | some e => simp
      | none =>
        cases h.ping with
        | some e => simp
        | none => simp

/-- The command without arguments on a host without database, and with `-h`
on a host without `.env` file. -/
theorem migrateMain_neither_flag_witness :
    (migrateMain noDatabaseHost [] ⟨some ["0001_init"], []⟩ =
        (match parseFlags false false [] with
          | .help => ⟨0, [.usage], ⟨some ["0001_init"], []⟩⟩
          | .failed msg => ⟨2, [.flagError msg, .usage], ⟨some ["0001_init"], []⟩⟩
          | .parsed _ _ => runMigrate noDatabaseHost false false ⟨some ["0001_init"], []⟩)
      ∧ (migrateMain noDatabaseHost [] ⟨some ["0001_init"], []⟩).db
          = ⟨some ["0001_init"], []⟩
      ∧ Event.applyMigrations
          ∉ (migrateMain noDatabaseHost [] ⟨some ["0001_init"], []⟩).events
      ∧ Event.rollbackLastMigration
          ∉ (migrateMain noDatabaseHost [] ⟨some ["0001_init"], []⟩).events)
      ∧ (migrateMain noDotenvHost ["-h"] ⟨none, []⟩).events = [.usage] :=
  ⟨migrateMain_neither_flag noDatabaseHost [] ⟨some ["0001_init"], []⟩
      (by intro up down h; simp only [parseFlags, FlagParse.parsed.injEq] at h
          exact ⟨h.1.symm, h.2.symm⟩),
    by
      have h := (migrateMain_neither_flag noDotenvHost ["-h"] ⟨none, []⟩
        (by decide)).1
      rw [h]
      decide⟩

/-- C11: the command is run without arguments, so neither flag is set.  In a
directory without `.env` file it ends with the fatal message and status 1 and
prints no usage; with a database that does not answer it ends the same way
after opening and pinging it; on a host where everything works it opens and
pings the database before it prints usage.  The `flag` package itself, asked
with `-h`, prints usage without any of this. -/
theorem migrateMain_no_flag_side_effects :
    migrateMain noDotenvHost [] ⟨none, []⟩
        = ⟨1, [.dotenvLoad, .fatal ("Error loading environment variables: "
            ++ "error loading .env file: open .env: no such file or directory")], ⟨none, []⟩⟩
      ∧ Event.usage ∉ (migrateMain noDotenvHost [] ⟨none, []⟩).events
      ∧ migrateMain noDatabaseHost [] ⟨none, []⟩
          = ⟨1, [.dotenvLoad,
              .sqlOpen "host=localhost port=5432 user=postgres dbname=app sslmode=disable password=secret",
              .ping,
              .fatal ("Error initializing database: " ++ "error connecting to database: "
                ++ "dial tcp 127.0.0.1:5432: connect: connection refused")], ⟨none, []⟩⟩
      ∧ Event.usage ∉ (migrateMain noDatabaseHost [] ⟨none, []⟩).events
      ∧ migrateMain goodHost [] ⟨none, []⟩
          = ⟨0, [.dotenvLoad,
              .sqlOpen "host=localhost port=5432 user=postgres dbname=app sslmode=disable password=secret",
              .ping, .usage, .close], ⟨none, []⟩⟩
      ∧ migrateMain noDotenvHost ["-h"] ⟨none, []⟩ = ⟨0, [.usage], ⟨none, []⟩⟩ := by
  refine ⟨by decide, by decide, by decide, by decide, by decide, by decide⟩

end Migrate

namespace Schedules

/-! ## The schedule of `DailyCleanupTask` -/

theorem mem_getBits_one (lo hi v : Nat) : v ∈ getBits lo hi 1 ↔ lo ≤ v ∧ v ≤ hi := by
  simp only [getBits, List.mem_filter, List.mem_range, Nat.mod_one, beq_self_eq_true,
    Bool.and_true, decide_eq_true_eq]
  omega

/-- The schedule the parser builds from the expression of `DailyCleanupTask`:
second 0, minute 0, and a star in every other field. -/
theorem parse_dailyCleanupSpec :
    parseWithSeconds dailyCleanupSpec
      = some ⟨⟨[0], false⟩, ⟨[0], false⟩, ⟨getBits 0 23 1, true⟩, ⟨getBits 1 31 1, true⟩,
          ⟨getBits 1 12 1, true⟩, ⟨getBits 0 6 1, true⟩⟩ := by
  decide

/-- The job of `DailyCleanupTask` runs at exactly the times whose second and
minute are zero, whatever the hour. -/
theorem dailyCleanup_fires_iff (t : Time) (ht : t.valid) :
    fires dailyCleanupSpec t = true ↔ t.second = 0 ∧ t.minute = 0 := by
  obtain ⟨h1, h2, h3, h4, h5, h6, h7, h8⟩ := ht
  have hh : t.hour ∈ getBits 0 23 1 := (mem_getBits_one 0 23 _).mpr ⟨Nat.zero_le _, by omega⟩
  have hd : t.day ∈ getBits 1 31 1 := (mem_getBits_one 1 31 _).mpr ⟨h4, h5⟩
  have hm : t.month ∈ getBits 1 12 1 := (mem_getBits_one 1 12 _).mpr ⟨h6, h7⟩
  have hw : t.weekday ∈ getBits 0 6 1 := (mem_getBits_one 0 6 _).mpr ⟨Nat.zero_le _, by omega⟩
  unfold fires
  rw [parse_dailyCleanupSpec]
  simp [SpecSchedule.matches, dayMatches, Field.has, hh, hd, hm, hw]
  tauto

/-- C13: the expression registered for `DailyCleanupTask` has six fields, of
which the first two, second and minute, are `0` and the hour is `*`: the job
runs at 01:00:00, which is not midnight, and at every full hour of a day, not
once per day. -/
theorem dailyCleanup_fires_every_hour :
    fires dailyCleanupSpec ⟨0, 0, 1, 1, 1, 4⟩ = true
      ∧ (∀ h ∈ List.range 24, fires dailyCleanupSpec ⟨0, 0, h, 1, 1, 4⟩ = true)
      ∧ ((List.range 24).filter (fun h => fires dailyCleanupSpec ⟨0, 0, h, 1, 1, 4⟩)).length
          = 24 := by
  refine ⟨by decide, by decide, by decide⟩

end Schedules

namespace Middlewares

/-! ## Validation errors -/

/-- With a struct identified, the loop never panics and gives every field
error the message of the specification. -/
theorem collectErrors_struct (fields : List StructField) :
    ∀ (validationErrs : List FieldError) (errors : List (String × String)),
      collectErrors (.struct fields) validationErrs errors
        = .ok (validationErrs.foldl
            (fun m fieldErr => mapSet m fieldErr.field (messageFor fields fieldErr)) errors) := by
  intro validationErrs
  induction validationErrs with
  | nil => intro errors; rfl
  | cons fe rest ih =>
    intro errors
    have hstep : collectErrors (.struct fields) (fe :: rest) errors
        = collectErrors (.struct fields) rest
            (mapSet errors fe.field (messageFor fields fe)) := by
      simp only [collectErrors, getFieldMessage, messageFor]
      cases fields.find? (fun field => field.name == fe.structField) with
      | none => simp
      | some field =>
        by_cases h : field.tagGet "message" = ""
        · simp [h]
        · simp [h]
    rw [hstep, ih, List.foldl_cons]

/-- When the registry identifies a struct for the error text,
`handleValidationErrors` answers with status 400 and the message of the
specification for every field error. -/
theorem handleValidationErrors_struct (registry : List (String × GoValue)) (errText : String)
    (validationErrs : List FieldError) (fields : List StructField)
    (h : identifyValidatorStruct registry errText = .struct fields) :
    handleValidationErrors registry errText validationErrs
      = .ok ⟨400, "Validation failed",
          validationErrs.foldl
            (fun m fieldErr => mapSet m fieldErr.field (messageFor fields fieldErr)) []⟩ := by
  simp [handleValidationErrors, h, collectErrors_struct]

/-- When no registered name occurs in the error text, `handleValidationErrors`
panics on the first field error. -/
theorem handleValidationErrors_no_match (registry : List (String × GoValue)) (errText : String)
    (fieldErr : FieldError) (rest : List FieldError)
    (h : ∀ entry ∈ registry, containsValidatorName errText entry.1 = false) :
    handleValidationErrors registry errText (fieldErr :: rest) = .panic .nilDereference := by
  have hf : registry.find? (fun entry => containsValidatorName errText entry.1) = none := by
    rw [List.find?_eq_none]
    intro x hx
    simp [h x hx]
  simp [handleValidationErrors, identifyValidatorStruct, hf, collectErrors, getFieldMessage]

/-- C12: with the registry as `validators/register.go` creates it, empty, no
registered name occurs in the error text, `identifyValidatorStruct` returns
nil, and `handleValidationErrors` panics in `getFieldMessage` instead of
answering with the default text of the field error. -/
theorem handleValidationErrors_panics_on_nil :
    identifyValidatorStruct ValidatorRegistry usernameRequired.error = .nil
      ∧ getFieldMessage .nil "Username" "message" = .panic .nilDereference
      ∧ handleValidationErrors ValidatorRegistry usernameRequired.error [usernameRequired]
          = .panic .nilDereference := by
  refine ⟨by decide, by decide, by decide⟩

end Middlewares
